import Mathlib

/-!
# Storage layer of xFasterTransformer (`src/common/my_types.h`)

A shallow embedding of `MatData<T, false>`, `MatData<T, true>`, `Matrix<T>`, `Vector<T>`
and of the calls they make to the external allocators, followed by theorems about them.

Conventions of the embedding
* `uint64_t` / `size_t` values are natural numbers; every product the code computes
  in 64 bits is reduced modulo `U64`.
* A pointer is its address, a natural number below `U64`; `0` is `NULL`.
  `p + n` on a `T *` is `ptrAdd sz p n`, with `sz = sizeof(T)`.
* `xft_numa_alloc`, `xft_numa_free`, `xft::alloc` and `free` are external.  Every call
  is recorded as an `Event`; the value an allocation returns is an argument of the
  operation that makes the call (`0` when the allocation fails).
* An operation returns a `Res`: the state it leaves, the calls it made, and how it
  ended (`normal`, `bad_alloc` thrown, or a failed `assert`, which aborts).
-/

namespace xft

/-- Number of values of a 64-bit unsigned integer, `2 ^ 64`. -/
abbrev U64 : Nat := 18446744073709551616

/-- Number of values of a 32-bit word, `2 ^ 32`. -/
abbrev U32 : Nat := 4294967296

/-- Pointer arithmetic `p + n` on a `T *` with `sizeof(T) = sz`, on 64-bit addresses. -/
def ptrAdd (sz p n : Nat) : Nat := (p + sz * n) % U64

/-- Calls to the external allocation primitives, in the order they are issued. -/
inductive Event where
  /-- Records `xft_numa_alloc(size)` returning `ret`. -/
  | numa_alloc (size ret : Nat)
  /-- Records `xft_numa_free(start, size)`. -/
  | numa_free (start size : Nat)
  /-- Records `xft::alloc(size)` returning `ret`. -/
  | alloc (size ret : Nat)
  /-- Records `free(p)`. -/
  | free (p : Nat)
  deriving DecidableEq

/-- How a call ends: it returns, it throws `std::bad_alloc`, or an `assert` fails. -/
inductive Exit where
  | normal
  | bad_alloc
  | assert_fail
  deriving DecidableEq

/-- Result of an operation: state left behind, allocator calls issued, way of ending. -/
structure Res (σ : Type) where
  st : σ
  events : List Event
  exit : Exit
  deriving DecidableEq

/-! ## `MatData<T, false>` -/

/-- Fields of `struct MatData` (primary template). -/
structure MatData where
  shadow : Bool
  buf_alloc_size : Nat
  buf : Nat
  deriving DecidableEq

namespace MatData

/-- Constructor `MatData()`. -/
def init : MatData := { shadow := false, buf := 0, buf_alloc_size := 0 }

/-- Constructor `MatData(T *buf)`. -/
def ofBuf (buf : Nat) : MatData := { shadow := true, buf := buf, buf_alloc_size := 0 }

/-- Implicitly declared copy constructor of `MatData`: member-wise copy. -/
def copy (d : MatData) : MatData :=
  { shadow := d.shadow, buf_alloc_size := d.buf_alloc_size, buf := d.buf }

/-- Method `MatData::Release()`. -/
def Release (sz : Nat) (d : MatData) : Res MatData :=
  if d.shadow = false ∧ d.buf ≠ 0 then
    { st := { d with buf := 0, buf_alloc_size := 0 }
      events := [Event.numa_free d.buf ((sz * d.buf_alloc_size) % U64)]
      exit := Exit.normal }
  else
    { st := { d with buf_alloc_size := 0 }, events := [], exit := Exit.normal }

/-- Method `MatData::Assign(T *buf)`. -/
def Assign (sz : Nat) (d : MatData) (buf : Nat) : Res MatData :=
  if d.shadow then
    { st := { d with buf := buf }, events := [], exit := Exit.normal }
  else
    let r := Release sz d
    { st := { r.st with shadow := true, buf := buf, buf_alloc_size := 0 }
      events := r.events
      exit := Exit.normal }

/-- Method `MatData::Resize(rows, cols, stride)`; `a` is what `xft_numa_alloc` returns
if it is called. -/
def Resize (sz a : Nat) (d : MatData) (rows _cols stride : Nat) : Res MatData :=
  if d.shadow then
    { st := d, events := [], exit := Exit.assert_fail }
  else
    let size := (rows * stride) % U64
    if d.buf_alloc_size ≥ size then
      { st := d, events := [], exit := Exit.normal }
    else
      { st := { d with buf_alloc_size := size, buf := a }
        events :=
          (if d.buf ≠ 0 then [Event.numa_free d.buf ((sz * d.buf_alloc_size) % U64)] else [])
            ++ [Event.numa_alloc ((sz * size) % U64) a]
        exit := if a = 0 then Exit.bad_alloc else Exit.normal }

end MatData

/-! ## `Matrix<T>` over the plain storage block -/

/-- Fields of `class Matrix`. -/
structure Matrix where
  rows : Nat
  cols : Nat
  stride : Nat
  data : MatData
  deriving DecidableEq

namespace Matrix

/-- Constructor `Matrix()`. -/
def empty : Matrix := { rows := 0, cols := 0, stride := 0, data := MatData.init }

/-- Constructor `Matrix(Matrix &m, start_row, rows, start_col, cols)`. -/
def sub (sz : Nat) (m : Matrix) (start_row rows start_col cols : Nat) : Matrix :=
  { data := MatData.ofBuf
      (ptrAdd sz (ptrAdd sz m.data.buf ((start_row * m.stride) % U64)) start_col)
    rows := rows
    cols := cols
    stride := m.stride }

/-- Constructor `Matrix(Matrix &m)`, whose initialiser is `data(m.data)`. -/
def copy (m : Matrix) : Matrix :=
  { data := MatData.copy m.data, rows := m.rows, cols := m.cols, stride := m.stride }

/-- Constructor `Matrix(Matrix &m, start_row, dilation, bool unused)`; the division
`m.rows / dilation` traps when `dilation` is zero. -/
def dilated (sz : Nat) (m : Matrix) (start_row dilation : Nat) (_unused : Bool) :
    Option Matrix :=
  if dilation = 0 then none
  else some
    { data := MatData.ofBuf (ptrAdd sz m.data.buf ((start_row * m.stride) % U64))
      rows := m.rows / dilation
      cols := m.cols
      stride := (m.stride * dilation) % U64 }

/-- Constructor `Matrix(Matrix &m, start_row, rows)`. -/
def rowRange (sz : Nat) (m : Matrix) (start_row rows : Nat) : Matrix :=
  { data := MatData.ofBuf (ptrAdd sz m.data.buf ((start_row * m.stride) % U64))
    rows := rows
    cols := m.cols
    stride := m.stride }

/-- Constructor `Matrix(T *buf, rows, cols, stride)`. -/
def ofBuf (buf rows cols stride : Nat) : Matrix :=
  { data := MatData.ofBuf buf, rows := rows, cols := cols, stride := stride }

/-- Method `Matrix::Release()`. -/
def Release (sz : Nat) (m : Matrix) : Res Matrix :=
  let r := MatData.Release sz m.data
  { st := { data := r.st, rows := 0, cols := 0, stride := 0 }
    events := r.events
    exit := Exit.normal }

/-- Method `Matrix::Assign(buf, rows, cols, stride)`. -/
def Assign (sz : Nat) (m : Matrix) (buf rows cols stride : Nat) : Res Matrix :=
  let r := MatData.Assign sz m.data buf
  { st := { data := r.st, rows := rows, cols := cols, stride := stride }
    events := r.events
    exit := Exit.normal }

/-- Method `Matrix::Resize(rows, cols)`. -/
def Resize (sz a : Nat) (m : Matrix) (rows cols : Nat) : Res Matrix :=
  if m.data.shadow then
    { st := m, events := [], exit := Exit.assert_fail }
  else if m.rows = rows ∧ m.cols = cols then
    { st := m, events := [], exit := Exit.normal }
  else if rows ≤ 0 ∨ cols ≤ 0 then
    Release sz m
  else
    let r := MatData.Resize sz a m.data rows cols cols
    { st := { data := r.st, stride := cols, rows := rows, cols := cols }
      events := r.events
      exit := r.exit }

/-- Method `Matrix::Resize(rows, cols, stride)`. -/
def Resize3 (sz a : Nat) (m : Matrix) (rows cols stride : Nat) : Res Matrix :=
  if m.data.shadow then
    { st := m, events := [], exit := Exit.assert_fail }
  else if m.rows = rows ∧ m.cols = cols ∧ m.stride = stride then
    { st := m, events := [], exit := Exit.normal }
  else if rows ≤ 0 ∨ cols ≤ 0 ∨ stride ≤ 0 then
    Release sz m
  else
    let r := MatData.Resize sz a m.data rows cols stride
    { st := { data := r.st, rows := rows, cols := cols, stride := stride }
      events := r.events
      exit := r.exit }

/-- Method `Matrix::isShadow()`. -/
def isShadow (m : Matrix) : Bool := m.data.shadow

/-- Method `Matrix::Data()`. -/
def Data (m : Matrix) : Nat := m.data.buf

/-- Method `Matrix::Rows()`. -/
def Rows (m : Matrix) : Nat := m.rows

/-- Method `Matrix::Cols()`. -/
def Cols (m : Matrix) : Nat := m.cols

/-- Method `Matrix::Stride()`. -/
def Stride (m : Matrix) : Nat := m.stride

/-- Method `Matrix::Row(idx)`: `data.buf + stride * idx`. -/
def Row (sz : Nat) (m : Matrix) (idx : Nat) : Nat :=
  ptrAdd sz m.data.buf ((m.stride * idx) % U64)

/-- Address of the element `Matrix::operator()(r, c)` refers to:
`data.buf + r * stride + c`. -/
def elemAddr (sz : Nat) (m : Matrix) (r c : Nat) : Nat :=
  ptrAdd sz (ptrAdd sz m.data.buf ((r * m.stride) % U64)) c

end Matrix

/-- One call on a `Matrix`, with the value the allocator returns if asked. -/
inductive MOp where
  | resize (rows cols a : Nat)
  | resize3 (rows cols stride a : Nat)
  | release
  deriving DecidableEq

/-- Performs one call of `MOp` on a matrix. -/
def Matrix.step (sz : Nat) (m : Matrix) : MOp → Res Matrix
  | MOp.resize rows cols a => Matrix.Resize sz a m rows cols
  | MOp.resize3 rows cols stride a => Matrix.Resize3 sz a m rows cols stride
  | MOp.release => Matrix.Release sz m

/-- State after a sequence of calls each of which returns normally; `none` as soon as
one of them does not. -/
def Matrix.run (sz : Nat) (m : Matrix) : List MOp → Option Matrix
  | [] => some m
  | op :: ops =>
    if (Matrix.step sz m op).exit = Exit.normal then
      Matrix.run sz (Matrix.step sz m op).st ops
    else none

/-- What every owning matrix satisfies between normally-returning calls: it is not a
view, it holds a buffer whenever a capacity is recorded, and the recorded capacity
covers `rows * stride` (as the code computes it). -/
def Matrix.Inv (m : Matrix) : Prop :=
  m.data.shadow = false ∧ (0 < m.data.buf_alloc_size → m.data.buf ≠ 0) ∧
    (m.rows * m.stride) % U64 ≤ m.data.buf_alloc_size

/-! ## Sequences of calls on a plain storage block -/

/-- One call on a `MatData<T, false>`, with the value the allocator returns if asked. -/
inductive DOp where
  | resize (rows cols stride a : Nat)
  | assign (buf : Nat)
  | release
  deriving DecidableEq

/-- Performs one call of `DOp` on a storage block. -/
def MatData.step (sz : Nat) (d : MatData) : DOp → Res MatData
  | DOp.resize rows cols stride a => MatData.Resize sz a d rows cols stride
  | DOp.assign buf => MatData.Assign sz d buf
  | DOp.release => MatData.Release sz d

/-- Allocator calls issued over the life of a block: those of the given calls, in
order, then those of the destructor `~MatData()`.  A failed `assert` aborts the
program, so nothing is called after it, the destructor included.  A thrown
`std::bad_alloc` reaches the caller, which may go on using the block. -/
def MatData.lifetime (sz : Nat) (d : MatData) : List DOp → List Event
  | [] => (MatData.Release sz d).events
  | op :: ops =>
    if (MatData.step sz d op).exit = Exit.assert_fail then (MatData.step sz d op).events
    else (MatData.step sz d op).events ++ MatData.lifetime sz (MatData.step sz d op).st ops

/-- Replays a call log against the set of live socket-local allocations, kept as
(address, byte size) pairs.  A successful `xft_numa_alloc` adds its pair; an
`xft_numa_free` must name a live pair, which it removes, else the replay fails with
`none`.  Calls to the general-purpose allocator are skipped. -/
def numaReplay : List (Nat × Nat) → List Event → Option (List (Nat × Nat))
  | live, [] => some live
  | live, Event.numa_alloc size ret :: es =>
    numaReplay (if ret = 0 then live else (ret, size) :: live) es
  | live, Event.numa_free start size :: es =>
    if (start, size) ∈ live then numaReplay (live.erase (start, size)) es else none
  | live, Event.alloc _ _ :: es => numaReplay live es
  | live, Event.free _ :: es => numaReplay live es

/-- The socket-local allocation a block owns: its buffer with the recorded size, when
the block is not a shadow and the buffer is not null. -/
def MatData.liveOf (sz : Nat) (d : MatData) : List (Nat × Nat) :=
  if d.shadow = false ∧ d.buf ≠ 0 then [(d.buf, (sz * d.buf_alloc_size) % U64)] else []

/-! ## `MatData<T, true>`: the storage block of a quantized matrix -/

/-- Enumeration `QuantizationScheme`. -/
inductive QuantizationScheme where
  | qscheme_undefined
  | per_tensor_symmetric
  | per_tensor_affine
  | per_channel_symmetric
  | per_channel_affine
  deriving DecidableEq

/-- The 24 bytes of `union QParam`, as three 64-bit little-endian words.  The members
of `per_t` share word 0 with `per_c.scales`: `per_t.scale` is its low half (the 32 bits
of an IEEE-754 `float`) and `per_t.zp` its high half (the 32 bits of an `int32_t`).
`per_c.zps` is word 1 and `per_c.alloc_size` is word 2. -/
structure QParam where
  w0 : Nat
  w1 : Nat
  w2 : Nat
  deriving DecidableEq

namespace QParam

/-- Reads `per_t.scale` (its bit pattern). -/
def per_t_scale (q : QParam) : Nat := q.w0 % U32

/-- Reads `per_t.zp` (its bit pattern). -/
def per_t_zp (q : QParam) : Nat := (q.w0 / U32) % U32

/-- Reads `per_c.scales`. -/
def per_c_scales (q : QParam) : Nat := q.w0

/-- Reads `per_c.zps`. -/
def per_c_zps (q : QParam) : Nat := q.w1

/-- Reads `per_c.alloc_size`. -/
def per_c_alloc_size (q : QParam) : Nat := q.w2

/-- Writes `per_t.scale`. -/
def set_per_t_scale (q : QParam) (v : Nat) : QParam :=
  { q with w0 := (q.w0 / U32) * U32 + v % U32 }

/-- Writes `per_t.zp`. -/
def set_per_t_zp (q : QParam) (v : Nat) : QParam :=
  { q with w0 := (v % U32) * U32 + q.w0 % U32 }

/-- Writes `per_c.scales`. -/
def set_per_c_scales (q : QParam) (p : Nat) : QParam := { q with w0 := p }

/-- Writes `per_c.zps`. -/
def set_per_c_zps (q : QParam) (p : Nat) : QParam := { q with w1 := p }

/-- Writes `per_c.alloc_size`. -/
def set_per_c_alloc_size (q : QParam) (n : Nat) : QParam := { q with w2 := n }

end QParam

/-- Bit pattern of the `float` 1.0 (`0x3F800000`). -/
def float_one : Nat := 1065353216

/-- Bit pattern of the `float` 2.0 (`0x40000000`). -/
def float_two : Nat := 1073741824

/-- What `Scales()` and `ZeroPoint()` return: the value of a pointer member (`0` is
`NULL`), or the address of a scalar member of the block itself. -/
inductive Loc where
  | addr (p : Nat)
  | per_t_scale
  | per_t_zp
  deriving DecidableEq

/-- Fields of `struct MatData<T, true>`. -/
structure MatDataQ where
  shadow : Bool
  buf_alloc_size : Nat
  buf : Nat
  qscheme : QuantizationScheme
  qparam : QParam
  deriving DecidableEq

namespace MatDataQ

open QuantizationScheme

/-- Constructor `MatData()` of the quantized block.  It does not initialise `qparam`,
whose bytes are whatever the storage held: `garbage`. -/
def init (garbage : QParam) : MatDataQ :=
  { shadow := false, buf := 0, buf_alloc_size := 0, qscheme := qscheme_undefined,
    qparam := garbage }

/-- First statement of `Resize`: the main buffer (lines 136 to 142). -/
def resizeBuf (sz a : Nat) (d : MatDataQ) (rows stride : Nat) : Res MatDataQ :=
  let size := (rows * stride) % U64
  if d.buf_alloc_size < size then
    { st := { d with buf_alloc_size := size, buf := a }
      events :=
        (if d.buf ≠ 0 then [Event.numa_free d.buf ((sz * d.buf_alloc_size) % U64)] else [])
          ++ [Event.numa_alloc ((sz * size) % U64) a]
      exit := if a = 0 then Exit.bad_alloc else Exit.normal }
  else
    { st := d, events := [], exit := Exit.normal }

/-- Second statement of `Resize`: the scale and zero point buffers (lines 144 to
156); `sizeof(float)` and `sizeof(int32_t)` are 4. -/
def resizeQParam (a_scales a_zps : Nat) (d : MatDataQ) (rows : Nat) : Res MatDataQ :=
  if (d.qscheme = per_channel_symmetric ∨ d.qscheme = per_channel_affine)
      ∧ d.qparam.per_c_alloc_size < rows then
    let ev_scales :=
      (if d.qparam.per_c_scales ≠ 0 then [Event.free d.qparam.per_c_scales] else [])
        ++ [Event.alloc ((4 * rows) % U64) a_scales]
    let q1 := d.qparam.set_per_c_scales a_scales
    if a_scales = 0 then
      { st := { d with qparam := q1 }, events := ev_scales, exit := Exit.bad_alloc }
    else
      let q2 := q1.set_per_c_alloc_size rows
      if d.qscheme = per_channel_affine then
        { st := { d with qparam := q2.set_per_c_zps a_zps }
          events := ev_scales
            ++ (if q2.per_c_zps ≠ 0 then [Event.free q2.per_c_zps] else [])
            ++ [Event.alloc ((4 * rows) % U64) a_zps]
          exit := if a_zps = 0 then Exit.bad_alloc else Exit.normal }
      else
        { st := { d with qparam := q2 }, events := ev_scales, exit := Exit.normal }
  else
    { st := d, events := [], exit := Exit.normal }

/-- Method `MatData<T, true>::Resize(rows, cols, stride)`; `a`, `a_scales` and `a_zps`
are what `xft_numa_alloc` and the two calls of `xft::alloc` return if they are made. -/
def Resize (sz a a_scales a_zps : Nat) (d : MatDataQ) (rows _cols stride : Nat) :
    Res MatDataQ :=
  if d.shadow then
    { st := d, events := [], exit := Exit.assert_fail }
  else if (resizeBuf sz a d rows stride).exit ≠ Exit.normal then
    resizeBuf sz a d rows stride
  else
    { st := (resizeQParam a_scales a_zps (resizeBuf sz a d rows stride).st rows).st
      events := (resizeBuf sz a d rows stride).events
        ++ (resizeQParam a_scales a_zps (resizeBuf sz a d rows stride).st rows).events
      exit := (resizeQParam a_scales a_zps (resizeBuf sz a d rows stride).st rows).exit }

/-- Method `MatData<T, true>::Release()`. -/
def Release (sz : Nat) (d : MatDataQ) : Res MatDataQ :=
  let ev_buf :=
    if d.shadow = false ∧ d.buf ≠ 0 then
      [Event.numa_free d.buf ((sz * d.buf_alloc_size) % U64)] else []
  let buf1 := if d.shadow = false ∧ d.buf ≠ 0 then 0 else d.buf
  if d.shadow = false
      ∧ (d.qscheme = per_channel_symmetric ∨ d.qscheme = per_channel_affine) then
    let q1 := d.qparam.set_per_c_scales 0
    { st := { d with
        buf := buf1
        buf_alloc_size := 0
        qparam :=
          (if d.qscheme = per_channel_affine then q1.set_per_c_zps 0
            else q1).set_per_c_alloc_size 0 }
      events := ev_buf ++ [Event.free d.qparam.per_c_scales]
        ++ (if d.qscheme = per_channel_affine then [Event.free q1.per_c_zps] else [])
      exit := Exit.normal }
  else
    { st := { d with buf := buf1, buf_alloc_size := 0 }, events := ev_buf,
      exit := Exit.normal }

/-- Method `MatData<T, true>::SetQScheme(scheme)`. -/
def SetQScheme (d : MatDataQ) (scheme : QuantizationScheme) : Res MatDataQ :=
  if scheme = per_tensor_symmetric ∨ scheme = per_tensor_affine then
    { st := { d with
        qparam := (d.qparam.set_per_t_scale float_one).set_per_t_zp 0
        qscheme := scheme }
      events :=
        if d.qscheme = per_channel_symmetric ∨ d.qscheme = per_channel_affine then
          (if d.qparam.per_c_scales ≠ 0 then [Event.free d.qparam.per_c_scales] else [])
            ++ (if d.qparam.per_c_zps ≠ 0 then [Event.free d.qparam.per_c_zps] else [])
        else []
      exit := Exit.normal }
  else if scheme = per_channel_symmetric ∨ scheme = per_channel_affine then
    { st := { d with
        qparam :=
          if d.qscheme ≠ per_channel_symmetric ∧ d.qscheme ≠ per_channel_affine then
            ((d.qparam.set_per_c_scales 0).set_per_c_zps 0).set_per_c_alloc_size 0
          else d.qparam
        qscheme := scheme }
      events := []
      exit := Exit.normal }
  else
    { st := { d with qscheme := scheme }, events := [], exit := Exit.normal }

/-- Method `MatData<T, true>::Scales()`. -/
def Scales (d : MatDataQ) : Loc :=
  if d.qscheme = per_tensor_symmetric ∨ d.qscheme = per_tensor_affine then
    Loc.per_t_scale
  else if d.qscheme = per_channel_symmetric ∨ d.qscheme = per_channel_affine then
    Loc.addr d.qparam.per_c_scales
  else Loc.addr 0

/-- Method `MatData<T, true>::ZeroPoint()`. -/
def ZeroPoint (d : MatDataQ) : Loc :=
  if d.qscheme = per_tensor_symmetric ∨ d.qscheme = per_tensor_affine then
    Loc.per_t_zp
  else if d.qscheme = per_channel_symmetric ∨ d.qscheme = per_channel_affine then
    Loc.addr d.qparam.per_c_zps
  else Loc.addr 0

/-- Value read through a pointer returned by `Scales()` or `ZeroPoint()`: the bits of
the scalar member it points at.  The contents of heap arrays are not part of the
state, so reading through an array pointer gives `none`. -/
def load (d : MatDataQ) : Loc → Option Nat
  | Loc.per_t_scale => some d.qparam.per_t_scale
  | Loc.per_t_zp => some d.qparam.per_t_zp
  | Loc.addr _ => none

end MatDataQ

/-- One call on a `MatData<T, true>`, with the values the allocators return if asked. -/
inductive QOp where
  | setQScheme (scheme : QuantizationScheme)
  | resize (rows cols stride a a_scales a_zps : Nat)
  | release
  deriving DecidableEq

/-- Performs one call of `QOp` on a quantized storage block. -/
def MatDataQ.step (sz : Nat) (d : MatDataQ) : QOp → Res MatDataQ
  | QOp.setQScheme scheme => MatDataQ.SetQScheme d scheme
  | QOp.resize rows cols stride a a_scales a_zps =>
    MatDataQ.Resize sz a a_scales a_zps d rows cols stride
  | QOp.release => MatDataQ.Release sz d

/-- Runs a sequence of calls, collecting the allocator calls; it stops at the first
call that does not return normally. -/
def MatDataQ.run (sz : Nat) (d : MatDataQ) : List QOp → Res MatDataQ
  | [] => { st := d, events := [], exit := Exit.normal }
  | op :: ops =>
    if (MatDataQ.step sz d op).exit = Exit.normal then
      { st := (MatDataQ.run sz (MatDataQ.step sz d op).st ops).st
        events := (MatDataQ.step sz d op).events
          ++ (MatDataQ.run sz (MatDataQ.step sz d op).st ops).events
        exit := (MatDataQ.run sz (MatDataQ.step sz d op).st ops).exit }
    else MatDataQ.step sz d op

/-- Replays a call log against the set of live general-purpose allocations, kept as
addresses.  A successful `xft::alloc` adds its address; `free(NULL)` does nothing;
any other `free` must name a live address, which it removes, else the replay fails
with `none`.  Calls to the socket-local allocator are skipped. -/
def heapReplay : List Nat → List Event → Option (List Nat)
  | live, [] => some live
  | live, Event.alloc _ ret :: es => heapReplay (if ret = 0 then live else ret :: live) es
  | live, Event.free p :: es =>
    if p = 0 then heapReplay live es
    else if p ∈ live then heapReplay (live.erase p) es
    else none
  | live, Event.numa_alloc _ _ :: es => heapReplay live es
  | live, Event.numa_free _ _ :: es => heapReplay live es

/-! ## Every call on a `Matrix`, and the states a matrix can be in -/

/-- One call on a `Matrix` out of `Resize` (both forms), `Release` and `Assign`, with
the value the allocator returns if asked. -/
inductive MCall where
  | resize (rows cols a : Nat)
  | resize3 (rows cols stride a : Nat)
  | release
  | assign (buf rows cols stride : Nat)
  deriving DecidableEq

/-- Performs one call of `MCall` on a matrix. -/
def Matrix.call (sz : Nat) (m : Matrix) : MCall → Res Matrix
  | MCall.resize rows cols a => Matrix.Resize sz a m rows cols
  | MCall.resize3 rows cols stride a => Matrix.Resize3 sz a m rows cols stride
  | MCall.release => Matrix.Release sz m
  | MCall.assign buf rows cols stride => Matrix.Assign sz m buf rows cols stride

/-- State of a matrix after a sequence of calls.  A call that throws `std::bad_alloc`
leaves the matrix in the state the throw found it in, and later calls go on from
there; a failed `assert` aborts the program, after which there is no state. -/
def Matrix.after (sz : Nat) (m : Matrix) : List MCall → Option Matrix
  | [] => some m
  | c :: cs =>
    if (Matrix.call sz m c).exit = Exit.assert_fail then none
    else Matrix.after sz (Matrix.call sz m c).st cs

/-- What the constructors build: `Matrix()` builds the empty matrix, and the
constructors over a caller buffer or over a part of another matrix build a shadow
block with recorded capacity 0 (`MatData(T *buf)`).  The copy constructor builds the
value of an existing matrix. -/
abbrev Matrix.constructed (m : Matrix) : Prop :=
  m = Matrix.empty ∨ (m.data.shadow = true ∧ m.data.buf_alloc_size = 0)

/-- Holds in every state of a matrix, also after a thrown `std::bad_alloc`: a shadow
block records capacity 0, and the capacity an owning block records covers
`rows * stride` (as the code computes it). -/
def Matrix.WF (m : Matrix) : Prop :=
  (m.data.shadow = true → m.data.buf_alloc_size = 0) ∧
    (m.data.shadow = false → (m.rows * m.stride) % U64 ≤ m.data.buf_alloc_size)

/-! ## `Vector<T>` -/

/-- Fields of `class Vector`. -/
structure Vector where
  data : Nat
  size : Nat
  alloc_size : Nat
  deriving DecidableEq

namespace Vector

/-- Constructor `Vector()`. -/
def init : Vector := { data := 0, size := 0, alloc_size := 0 }

/-- Method `Vector::Release()`. -/
def Release (sz : Nat) (v : Vector) : Res Vector :=
  if v.data ≠ 0 then
    { st := { data := 0, size := 0, alloc_size := 0 }
      events := [Event.numa_free v.data ((sz * v.alloc_size) % U64)]
      exit := Exit.normal }
  else
    { st := { v with size := 0, alloc_size := 0 }, events := [], exit := Exit.normal }

/-- Method `Vector::Resize(size)`; `a` is what `xft_numa_alloc` returns if it is
called. -/
def Resize (sz a : Nat) (v : Vector) (size : Nat) : Res Vector :=
  if size ≤ 0 then
    Release sz v
  else if v.alloc_size ≥ size then
    { st := { v with size := size }, events := [], exit := Exit.normal }
  else
    { st := { data := a, size := size
              alloc_size := (size + (16 - (size % 16)) % 16) % U64 }
      events :=
        (if v.data ≠ 0 then [Event.numa_free v.data ((sz * v.alloc_size) % U64)] else [])
          ++ [Event.numa_alloc ((sz * ((size + (16 - (size % 16)) % 16) % U64)) % U64) a]
      exit := if a = 0 then Exit.bad_alloc else Exit.normal }

/-- Method `Vector::SetZero()`: `memset(data, 0, sizeof(T) * size)`.  It writes
elements only, which are not part of the state; writing a positive number of bytes
through a null `data` traps, which is `none`. -/
def SetZero (sz : Nat) (v : Vector) : Option Vector :=
  if v.data = 0 ∧ 0 < (sz * v.size) % U64 then none else some v

/-- Method `Vector::Data()`. -/
def Data (v : Vector) : Nat := v.data

/-- Method `Vector::Size()`. -/
def Size (v : Vector) : Nat := v.size

end Vector

/-- One call on a `Vector`, with the value the allocator returns if asked. -/
inductive VOp where
  | resize (size a : Nat)
  | setZero
  | release
  deriving DecidableEq

/-- State of a vector after a sequence of calls; it goes on after a thrown
`std::bad_alloc` and is `none` after a trap. -/
def Vector.after (sz : Nat) (v : Vector) : List VOp → Option Vector
  | [] => some v
  | VOp.resize size a :: ops => Vector.after sz (Vector.Resize sz a v size).st ops
  | VOp.setZero :: ops =>
    match Vector.SetZero sz v with
    | none => none
    | some v1 => Vector.after sz v1 ops
  | VOp.release :: ops => Vector.after sz (Vector.Release sz v).st ops

/-- Tells whether a call keeps the rounding of `Vector::Resize` within 64 bits: the
size asked for is at most `2^64 - 16`. -/
def VOp.fits : VOp → Bool
  | VOp.resize size _ => decide (size ≤ U64 - 16)
  | VOp.setZero => true
  | VOp.release => true

/-! ## States used in the concrete examples -/

/-- The matrix a fresh `Matrix` becomes when `Resize(2, 3)` gets its buffer at 4096. -/
def exOwner : Matrix :=
  { rows := 2, cols := 3, stride := 3,
    data := { shadow := false, buf_alloc_size := 6, buf := 4096 } }

/-- The matrix a fresh `Matrix` becomes when `Resize(2, 3, 5)` gets its buffer at
4096. -/
def exPadded : Matrix :=
  { rows := 2, cols := 3, stride := 5,
    data := { shadow := false, buf_alloc_size := 10, buf := 4096 } }

/-- A parent matrix of 6 rows and 4 columns, stride 4, with its buffer at 4096. -/
def exParent : Matrix :=
  { rows := 6, cols := 4, stride := 4,
    data := { shadow := false, buf_alloc_size := 24, buf := 4096 } }

/-- Uninitialised bytes found in `qparam` by the constructor in the examples. -/
def exGarbage : QParam := { w0 := 57005, w1 := 48879, w2 := 7 }

/-- A quantized block under `per_tensor_symmetric` that stores scale 2.0 and zero
point 5. -/
def exPerTensor : MatDataQ :=
  { shadow := false, buf_alloc_size := 0, buf := 0
    qscheme := QuantizationScheme.per_tensor_symmetric
    qparam := { w0 := 5 * U32 + float_two, w1 := 48879, w2 := 7 } }

/-- A quantized block under `per_channel_affine` with 4 rows: main buffer at 4096,
scales at 8192, zero points at 12288. -/
def exPerChannel : MatDataQ :=
  { shadow := false, buf_alloc_size := 32, buf := 4096
    qscheme := QuantizationScheme.per_channel_affine
    qparam := { w0 := 8192, w1 := 12288, w2 := 4 } }

/-- The matrix a fresh `Matrix` is left as when `Resize(2, 3, 3)` throws because the
allocation failed: the shape and the capacity 6 are recorded, the buffer is null. -/
def exFailed : Matrix :=
  { rows := 2, cols := 3, stride := 3,
    data := { shadow := false, buf_alloc_size := 6, buf := 0 } }

/-! # Theorems -/

/-! ## Invariant of an owning `Matrix` -/

theorem Matrix.inv_empty : Matrix.Inv Matrix.empty := by
  simp [Matrix.Inv, Matrix.empty, MatData.init]

theorem MatData.Release_shadow (sz : Nat) (d : MatData) :
    (MatData.Release sz d).st.shadow = d.shadow := by
  unfold MatData.Release
  split <;> rfl

theorem MatData.Release_cap (sz : Nat) (d : MatData) :
    (MatData.Release sz d).st.buf_alloc_size = 0 := by
  unfold MatData.Release
  split <;> rfl

theorem Matrix.inv_Release (sz : Nat) (m : Matrix) :
    Matrix.Inv m → Matrix.Inv (Matrix.Release sz m).st := by
  intro h
  refine ⟨?_, ?_, ?_⟩
  · simpa [Matrix.Release, MatData.Release_shadow] using h.1
  · simp [Matrix.Release, MatData.Release_cap]
  · simp [Matrix.Release]

theorem MatData.inv_Resize (sz a : Nat) (d : MatData) (rows cols stride : Nat)
    (hs : d.shadow = false) (hb : 0 < d.buf_alloc_size → d.buf ≠ 0)
    (hex : (MatData.Resize sz a d rows cols stride).exit = Exit.normal) :
    (MatData.Resize sz a d rows cols stride).st.shadow = false ∧
    (0 < (MatData.Resize sz a d rows cols stride).st.buf_alloc_size →
      (MatData.Resize sz a d rows cols stride).st.buf ≠ 0) ∧
    (rows * stride) % U64 ≤ (MatData.Resize sz a d rows cols stride).st.buf_alloc_size := by
  unfold MatData.Resize at hex ⊢
  simp only [hs, Bool.false_eq_true, if_false] at hex ⊢
  by_cases hc : d.buf_alloc_size ≥ (rows * stride) % U64
  · rw [if_pos hc]
    exact ⟨hs, hb, hc⟩
  · rw [if_neg hc] at hex ⊢
    by_cases ha : a = 0
    · simp [ha] at hex
    · exact ⟨rfl, fun _ => ha, le_refl _⟩

theorem Matrix.inv_step (sz : Nat) (m : Matrix) (op : MOp) (h : Matrix.Inv m)
    (hex : (Matrix.step sz m op).exit = Exit.normal) :
    Matrix.Inv (Matrix.step sz m op).st := by
  obtain ⟨hs, hb, hc⟩ := h
  cases op with
  | resize rows cols a =>
    simp only [Matrix.step] at hex ⊢
    unfold Matrix.Resize at hex ⊢
    simp only [hs, Bool.false_eq_true, if_false] at hex ⊢
    by_cases h1 : m.rows = rows ∧ m.cols = cols
    · simp only [h1, and_self, if_true]
      exact ⟨hs, hb, by simpa [h1.1] using hc⟩
    · simp only [h1, if_false] at hex ⊢
      by_cases h2 : rows ≤ 0 ∨ cols ≤ 0
      · simp only [h2, if_true]
        exact Matrix.inv_Release sz m ⟨hs, hb, hc⟩
      · simp only [h2, if_false] at hex ⊢
        exact MatData.inv_Resize sz a m.data rows cols cols hs hb hex
  | resize3 rows cols stride a =>
    simp only [Matrix.step] at hex ⊢
    unfold Matrix.Resize3 at hex ⊢
    simp only [hs, Bool.false_eq_true, if_false] at hex ⊢
    by_cases h1 : m.rows = rows ∧ m.cols = cols ∧ m.stride = stride
    · simp only [h1, and_self, if_true]
      exact ⟨hs, hb, by simpa [h1.1, h1.2.2] using hc⟩
    · simp only [h1, if_false] at hex ⊢
      by_cases h2 : rows ≤ 0 ∨ cols ≤ 0 ∨ stride ≤ 0
      · simp only [h2, if_true]
        exact Matrix.inv_Release sz m ⟨hs, hb, hc⟩
      · simp only [h2, if_false] at hex ⊢
        exact MatData.inv_Resize sz a m.data rows cols stride hs hb hex
  | release => exact Matrix.inv_Release sz m ⟨hs, hb, hc⟩

theorem Matrix.inv_run (sz : Nat) (ops : List MOp) :
    ∀ (m m1 : Matrix), Matrix.Inv m → Matrix.run sz m ops = some m1 → Matrix.Inv m1 := by
  induction ops with
  | nil =>
    intro m m1 h hr
    simp only [Matrix.run, Option.some.injEq] at hr
    exact hr ▸ h
  | cons op ops ih =>
    intro m m1 h hr
    simp only [Matrix.run] at hr
    by_cases hex : (Matrix.step sz m op).exit = Exit.normal
    · simp only [hex, if_true] at hr
      exact ih _ _ (Matrix.inv_step sz m op h hex) hr
    · simp [hex] at hr

/-! ## C1: postcondition of `Matrix::Resize(rows, cols)` -/

/-- C1, counterexample. The claim fails at two inputs.  On a freshly constructed
matrix, `Resize(2^32, 2^32)` asks for `2^32 * 2^32 = 0 (mod 2^64)` elements, so the
storage block returns without allocating and `Data()` is still null.  After
`Resize(2, 3, 5)`, the call `Resize(2, 3)` finds rows and cols unchanged and returns at
once, so `Stride()` is still 5, not 3. -/
theorem C1_counterexample :
    (Matrix.run 4 Matrix.empty [] = some Matrix.empty ∧
      (Matrix.Resize 4 4096 Matrix.empty 4294967296 4294967296).exit = Exit.normal ∧
      (Matrix.Resize 4 4096 Matrix.empty 4294967296 4294967296).st.Data = 0) ∧
    (Matrix.run 4 Matrix.empty [MOp.resize3 2 3 5 4096] = some exPadded ∧
      (Matrix.Resize 4 8192 exPadded 2 3).exit = Exit.normal ∧
      (Matrix.Resize 4 8192 exPadded 2 3).st.Stride = 5) := by
  decide

/-- C1, as amended. Let `m` be the state a freshly constructed matrix is in after any
sequence of normally-returning `Resize(rows, cols)`, `Resize(rows, cols, stride)` and
`Release` calls.  For `rows > 0`, `cols > 0` with `rows * cols` not a multiple of
`2^64` (so whenever `rows * cols < 2^64`), and provided the call is not the one on
unchanged rows and cols with a stride other than `cols`: when `Resize(rows, cols)`
returns normally, `Rows() == rows`, `Cols() == cols`, `Stride() == cols` and `Data()`
is non-null. -/
theorem C1_Resize_postcondition (sz a : Nat) (ops : List MOp) (m : Matrix) (rows cols : Nat)
    (hreach : Matrix.run sz Matrix.empty ops = some m)
    (hrows : 0 < rows) (hcols : 0 < cols) (hfit : (rows * cols) % U64 ≠ 0)
    (hsame : m.Rows = rows ∧ m.Cols = cols → m.Stride = cols)
    (hret : (Matrix.Resize sz a m rows cols).exit = Exit.normal) :
    (Matrix.Resize sz a m rows cols).st.Rows = rows ∧
    (Matrix.Resize sz a m rows cols).st.Cols = cols ∧
    (Matrix.Resize sz a m rows cols).st.Stride = cols ∧
    (Matrix.Resize sz a m rows cols).st.Data ≠ 0 := by
  obtain ⟨hs, hb, hc⟩ := Matrix.inv_run sz ops _ _ Matrix.inv_empty hreach
  unfold Matrix.Resize at hret ⊢
  simp only [hs, Bool.false_eq_true, if_false] at hret ⊢
  by_cases h1 : m.rows = rows ∧ m.cols = cols
  · rw [if_pos h1]
    have hst : m.stride = cols := hsame h1
    refine ⟨h1.1, h1.2, hst, ?_⟩
    apply hb
    rw [h1.1, hst] at hc
    omega
  · rw [if_neg h1] at hret ⊢
    have h2 : ¬ (rows ≤ 0 ∨ cols ≤ 0) := by omega
    rw [if_neg h2] at hret ⊢
    refine ⟨rfl, rfl, rfl, ?_⟩
    have hres := MatData.inv_Resize sz a m.data rows cols cols hs hb hret
    apply hres.2.1
    have := hres.2.2
    omega

/-- C1, witness: after `Resize(2, 3)` obtained its buffer at address 4096, the call
`Resize(1, 5)` returns normally and the statement applies. -/
theorem C1_Resize_postcondition_witness :
    (Matrix.Resize 4 8192 exOwner 1 5).st.Rows = 1 ∧
    (Matrix.Resize 4 8192 exOwner 1 5).st.Cols = 5 ∧
    (Matrix.Resize 4 8192 exOwner 1 5).st.Stride = 5 ∧
    (Matrix.Resize 4 8192 exOwner 1 5).st.Data ≠ 0 :=
  C1_Resize_postcondition 4 8192 [MOp.resize 2 3 4096] exOwner 1 5
    (by decide) (by decide) (by decide) (by decide) (by decide) (by decide)

/-! ## C2: `Resize` within the allocated capacity -/

theorem MatData.Release_buf (sz : Nat) (d : MatData) (hs : d.shadow = false) :
    (MatData.Release sz d).st.buf = 0 := by
  unfold MatData.Release
  by_cases hb : d.buf = 0
  · simp [hs, hb]
  · simp [hs, hb]

theorem MatData.Release_null (sz : Nat) (d : MatData) (hb : d.buf = 0) :
    (MatData.Release sz d).events = [] ∧ (MatData.Release sz d).st.buf = 0 := by
  unfold MatData.Release
  simp [hb]

theorem MatData.Resize_shadow (sz a : Nat) (d : MatData) (rows cols stride : Nat) :
    (MatData.Resize sz a d rows cols stride).st.shadow = d.shadow := by
  unfold MatData.Resize
  by_cases hs : d.shadow = true
  · rw [if_pos hs]
  · rw [if_neg hs]
    by_cases hc : d.buf_alloc_size ≥ (rows * stride) % U64
    · simp only [hc, if_true]
    · simp only [hc, if_false]

/-- After `Resize(rows, cols)` a non-view matrix either has the requested rows and
cols, or the request had a zero and the matrix holds no buffer. -/
theorem Matrix.Resize_shape (sz a : Nat) (m : Matrix) (rows cols : Nat)
    (hs : m.data.shadow = false) :
    (Matrix.Resize sz a m rows cols).st.data.shadow = false ∧
    (((Matrix.Resize sz a m rows cols).st.rows = rows ∧
        (Matrix.Resize sz a m rows cols).st.cols = cols) ∨
      ((rows ≤ 0 ∨ cols ≤ 0) ∧ (Matrix.Resize sz a m rows cols).st.data.buf = 0)) := by
  unfold Matrix.Resize
  simp only [hs, Bool.false_eq_true, if_false]
  by_cases h1 : m.rows = rows ∧ m.cols = cols
  · rw [if_pos h1]
    exact ⟨hs, Or.inl h1⟩
  · rw [if_neg h1]
    by_cases h2 : rows ≤ 0 ∨ cols ≤ 0
    · rw [if_pos h2]
      refine ⟨?_, Or.inr ⟨h2, ?_⟩⟩
      · simpa [Matrix.Release, MatData.Release_shadow] using hs
      · simpa [Matrix.Release] using MatData.Release_buf sz m.data hs
    · rw [if_neg h2]
      refine ⟨?_, Or.inl ⟨rfl, rfl⟩⟩
      simpa [MatData.Resize_shadow] using hs

theorem Matrix.Resize_again (sz a : Nat) (m : Matrix) (rows cols : Nat)
    (hs : m.data.shadow = false)
    (h : (m.rows = rows ∧ m.cols = cols) ∨ ((rows ≤ 0 ∨ cols ≤ 0) ∧ m.data.buf = 0)) :
    (Matrix.Resize sz a m rows cols).events = [] ∧
    (Matrix.Resize sz a m rows cols).st.Data = m.Data := by
  unfold Matrix.Resize
  simp only [hs, Bool.false_eq_true, if_false]
  by_cases h1 : m.rows = rows ∧ m.cols = cols
  · rw [if_pos h1]
    exact ⟨rfl, rfl⟩
  · rw [if_neg h1]
    rcases h with h | ⟨h2, hb⟩
    · exact absurd h h1
    · rw [if_pos h2]
      have hr := MatData.Release_null sz m.data hb
      exact ⟨hr.1, by simpa [Matrix.Release, Matrix.Data, hb] using hr.2⟩

/-- After `Resize(rows, cols, stride)` a non-view matrix either has the requested
shape, or the request had a zero and the matrix holds no buffer. -/
theorem Matrix.Resize3_shape (sz a : Nat) (m : Matrix) (rows cols stride : Nat)
    (hs : m.data.shadow = false) :
    (Matrix.Resize3 sz a m rows cols stride).st.data.shadow = false ∧
    (((Matrix.Resize3 sz a m rows cols stride).st.rows = rows ∧
        (Matrix.Resize3 sz a m rows cols stride).st.cols = cols ∧
        (Matrix.Resize3 sz a m rows cols stride).st.stride = stride) ∨
      ((rows ≤ 0 ∨ cols ≤ 0 ∨ stride ≤ 0) ∧
        (Matrix.Resize3 sz a m rows cols stride).st.data.buf = 0)) := by
  unfold Matrix.Resize3
  simp only [hs, Bool.false_eq_true, if_false]
  by_cases h1 : m.rows = rows ∧ m.cols = cols ∧ m.stride = stride
  · rw [if_pos h1]
    exact ⟨hs, Or.inl h1⟩
  · rw [if_neg h1]
    by_cases h2 : rows ≤ 0 ∨ cols ≤ 0 ∨ stride ≤ 0
    · rw [if_pos h2]
      refine ⟨?_, Or.inr ⟨h2, ?_⟩⟩
      · simpa [Matrix.Release, MatData.Release_shadow] using hs
      · simpa [Matrix.Release] using MatData.Release_buf sz m.data hs
    · rw [if_neg h2]
      refine ⟨?_, Or.inl ⟨rfl, rfl, rfl⟩⟩
      simpa [MatData.Resize_shadow] using hs

theorem Matrix.Resize3_again (sz a : Nat) (m : Matrix) (rows cols stride : Nat)
    (hs : m.data.shadow = false)
    (h : (m.rows = rows ∧ m.cols = cols ∧ m.stride = stride) ∨
      ((rows ≤ 0 ∨ cols ≤ 0 ∨ stride ≤ 0) ∧ m.data.buf = 0)) :
    (Matrix.Resize3 sz a m rows cols stride).events = [] ∧
    (Matrix.Resize3 sz a m rows cols stride).st.Data = m.Data := by
  unfold Matrix.Resize3
  simp only [hs, Bool.false_eq_true, if_false]
  by_cases h1 : m.rows = rows ∧ m.cols = cols ∧ m.stride = stride
  · rw [if_pos h1]
    exact ⟨rfl, rfl⟩
  · rw [if_neg h1]
    rcases h with h | ⟨h2, hb⟩
    · exact absurd h h1
    · rw [if_pos h2]
      have hr := MatData.Release_null sz m.data hb
      exact ⟨hr.1, by simpa [Matrix.Release, Matrix.Data, hb] using hr.2⟩

/-- C2, counterexample. A non-view matrix holds 6 elements at address 4096.
`Resize(0, 5)` needs capacity `0 <= 6`, yet it releases the matrix: `xft_numa_free` is
called, `Data()` becomes null and `Cols()` is 0, not 5.  And after `Resize(2, 3, 5)`
the call `Resize(2, 3)` needs `6 <= 10` and leaves `Stride()` at 5, not at `cols = 3`. -/
theorem C2_counterexample :
    (exOwner.isShadow = false ∧ (0 * 5) % U64 ≤ exOwner.data.buf_alloc_size ∧
      exOwner.Data = 4096 ∧
      (Matrix.Resize 4 8192 exOwner 0 5).events = [Event.numa_free 4096 24] ∧
      (Matrix.Resize 4 8192 exOwner 0 5).st.Data = 0 ∧
      (Matrix.Resize 4 8192 exOwner 0 5).st.Cols = 0) ∧
    (exPadded.isShadow = false ∧ (2 * 3) % U64 ≤ exPadded.data.buf_alloc_size ∧
      (Matrix.Resize 4 8192 exPadded 2 3).st.Stride = 5) := by
  decide

/-- C2, as amended. For every non-view matrix and every `Resize` call with `rows > 0`
and `cols > 0` (and `stride > 0` in the three-argument form) whose required capacity
`rows * stride`, as computed in 64 bits, is at most the allocated capacity: the call
returns normally, issues no allocator call and leaves `Data()` unchanged; afterwards
`Rows()` and `Cols()` equal the arguments, `Stride()` equals the stride argument of the
three-argument form, and equals `cols` after a two-argument call that changed rows or
cols.  Moreover a `Resize` repeated with the identical arguments, whatever they are and
however the first call ended, issues no allocator call and leaves `Data()` unchanged. -/
theorem C2_Resize_within_capacity (sz a a2 : Nat) (m : Matrix) (rows cols stride : Nat)
    (hview : m.isShadow = false) :
    (0 < rows → 0 < cols → (rows * cols) % U64 ≤ m.data.buf_alloc_size →
      (Matrix.Resize sz a m rows cols).exit = Exit.normal ∧
      (Matrix.Resize sz a m rows cols).events = [] ∧
      (Matrix.Resize sz a m rows cols).st.Data = m.Data ∧
      (Matrix.Resize sz a m rows cols).st.Rows = rows ∧
      (Matrix.Resize sz a m rows cols).st.Cols = cols ∧
      (¬ (m.Rows = rows ∧ m.Cols = cols) →
        (Matrix.Resize sz a m rows cols).st.Stride = cols)) ∧
    (0 < rows → 0 < cols → 0 < stride → (rows * stride) % U64 ≤ m.data.buf_alloc_size →
      (Matrix.Resize3 sz a m rows cols stride).exit = Exit.normal ∧
      (Matrix.Resize3 sz a m rows cols stride).events = [] ∧
      (Matrix.Resize3 sz a m rows cols stride).st.Data = m.Data ∧
      (Matrix.Resize3 sz a m rows cols stride).st.Rows = rows ∧
      (Matrix.Resize3 sz a m rows cols stride).st.Cols = cols ∧
      (Matrix.Resize3 sz a m rows cols stride).st.Stride = stride) ∧
    ((Matrix.Resize sz a2 (Matrix.Resize sz a m rows cols).st rows cols).events = [] ∧
      (Matrix.Resize sz a2 (Matrix.Resize sz a m rows cols).st rows cols).st.Data
        = (Matrix.Resize sz a m rows cols).st.Data) ∧
    ((Matrix.Resize3 sz a2 (Matrix.Resize3 sz a m rows cols stride).st rows cols stride).events
        = [] ∧
      (Matrix.Resize3 sz a2 (Matrix.Resize3 sz a m rows cols stride).st rows cols stride).st.Data
        = (Matrix.Resize3 sz a m rows cols stride).st.Data) := by
  have hs : m.data.shadow = false := hview
  refine ⟨?_, ?_, ?_, ?_⟩
  · intro hrows hcols hcap
    have h2 : ¬ (rows ≤ 0 ∨ cols ≤ 0) := by omega
    unfold Matrix.Resize MatData.Resize
    simp only [hs, Bool.false_eq_true, if_false]
    by_cases h1 : m.rows = rows ∧ m.cols = cols
    · rw [if_pos h1]
      exact ⟨rfl, rfl, rfl, h1.1, h1.2, fun h => absurd h1 h⟩
    · rw [if_neg h1, if_neg h2, if_pos hcap]
      exact ⟨rfl, rfl, rfl, rfl, rfl, fun _ => rfl⟩
  · intro hrows hcols hstride hcap
    have h2 : ¬ (rows ≤ 0 ∨ cols ≤ 0 ∨ stride ≤ 0) := by omega
    unfold Matrix.Resize3 MatData.Resize
    simp only [hs, Bool.false_eq_true, if_false]
    by_cases h1 : m.rows = rows ∧ m.cols = cols ∧ m.stride = stride
    · rw [if_pos h1]
      exact ⟨rfl, rfl, rfl, h1.1, h1.2.1, h1.2.2⟩
    · rw [if_neg h1, if_neg h2, if_pos hcap]
      exact ⟨rfl, rfl, rfl, rfl, rfl, rfl⟩
  · obtain ⟨hs1, hshape⟩ := Matrix.Resize_shape sz a m rows cols hs
    exact Matrix.Resize_again sz a2 _ rows cols hs1 hshape
  · obtain ⟨hs1, hshape⟩ := Matrix.Resize3_shape sz a m rows cols stride hs
    exact Matrix.Resize3_again sz a2 _ rows cols stride hs1 hshape

/-- C2, witness: a matrix holding 6 elements at 4096 is resized to 1 x 5 and to
1 x 2 with stride 4, both within capacity. -/
theorem C2_Resize_within_capacity_witness :
    (Matrix.Resize 4 8192 exOwner 1 5).st.Data = exOwner.Data ∧
    (Matrix.Resize3 4 8192 exOwner 1 2 4).st.Stride = 4 :=
  ⟨((C2_Resize_within_capacity 4 8192 0 exOwner 1 5 4
      (by decide)).1 (by decide) (by decide) (by decide)).2.2.1,
   ((C2_Resize_within_capacity 4 8192 0 exOwner 1 2 4
      (by decide)).2.1 (by decide) (by decide) (by decide) (by decide)).2.2.2.2.2⟩

/-! ## C3: frees of a plain storage block are paired with its own allocations -/

theorem numaReplay_append (e1 : List Event) :
    ∀ (live : List (Nat × Nat)) (e2 : List Event),
      numaReplay live (e1 ++ e2) = (numaReplay live e1).bind (fun l => numaReplay l e2) := by
  induction e1 with
  | nil => intro live e2; rfl
  | cons e es ih =>
    intro live e2
    cases e with
    | numa_alloc size ret =>
      simp only [List.cons_append, numaReplay]
      exact ih _ _
    | numa_free start size =>
      simp only [List.cons_append, numaReplay]
      split_ifs
      · exact ih _ _
      · rfl
    | alloc size ret =>
      simp only [List.cons_append, numaReplay]
      exact ih _ _
    | free p =>
      simp only [List.cons_append, numaReplay]
      exact ih _ _

theorem MatData.replay_Release (sz : Nat) (d : MatData) :
    numaReplay (MatData.liveOf sz d) (MatData.Release sz d).events
      = some (MatData.liveOf sz (MatData.Release sz d).st) := by
  unfold MatData.Release MatData.liveOf
  by_cases h : d.shadow = false ∧ d.buf ≠ 0
  · simp [h, numaReplay]
  · rw [if_neg h, if_neg h]
    have h2 : ¬ (d.shadow = false ∧ d.buf ≠ 0) := h
    simp only [h2, if_false, numaReplay]

theorem MatData.replay_step (sz : Nat) (d : MatData) (op : DOp) :
    numaReplay (MatData.liveOf sz d) (MatData.step sz d op).events
      = some (MatData.liveOf sz (MatData.step sz d op).st) := by
  cases op with
  | release => exact MatData.replay_Release sz d
  | assign buf =>
    simp only [MatData.step]
    unfold MatData.Assign
    by_cases hs : d.shadow = true
    · simp [hs, MatData.liveOf, numaReplay]
    · have hs2 : d.shadow = false := by simpa using hs
      rw [if_neg hs]
      show numaReplay (MatData.liveOf sz d) (MatData.Release sz d).events = _
      rw [MatData.replay_Release]
      simp only [MatData.liveOf, Bool.true_eq_false, false_and, if_false, Option.some.injEq,
        ite_eq_right_iff, List.cons_ne_nil, imp_false, not_and, not_not]
      intro _
      exact MatData.Release_buf sz d hs2
  | resize rows cols stride a =>
    simp only [MatData.step]
    unfold MatData.Resize
    by_cases hs : d.shadow = true
    · simp [hs, MatData.liveOf, numaReplay]
    · have hs2 : d.shadow = false := by simpa using hs
      rw [if_neg hs]
      by_cases hc : d.buf_alloc_size ≥ (rows * stride) % U64
      · simp only [hc, if_true, numaReplay]
      · simp only [hc, if_false]
        by_cases hb : d.buf = 0 <;> by_cases ha : a = 0 <;>
          simp [MatData.liveOf, numaReplay, hs2, hb, ha]

theorem MatData.abort_shadow (sz : Nat) (d : MatData) (op : DOp)
    (h : (MatData.step sz d op).exit = Exit.assert_fail) : d.shadow = true := by
  cases op with
  | release =>
    simp only [MatData.step, MatData.Release] at h
    split_ifs at h
  | assign buf =>
    simp only [MatData.step, MatData.Assign] at h
    split_ifs at h
  | resize rows cols stride a =>
    simp only [MatData.step] at h
    unfold MatData.Resize at h
    by_cases hs : d.shadow = true
    · exact hs
    · simp only [hs, if_false] at h
      by_cases hc : d.buf_alloc_size ≥ (rows * stride) % U64
      · simp [hc] at h
      · simp only [hc, if_false] at h
        by_cases ha : a = 0 <;> simp [ha] at h

theorem MatData.lifetime_paired (sz : Nat) (ops : List DOp) :
    ∀ d : MatData, numaReplay (MatData.liveOf sz d) (MatData.lifetime sz d ops) = some [] := by
  induction ops with
  | nil =>
    intro d
    simp only [MatData.lifetime]
    rw [MatData.replay_Release]
    unfold MatData.liveOf MatData.Release
    by_cases h : d.shadow = false ∧ d.buf ≠ 0
    · simp [h]
    · rw [if_neg h]
      have h2 : ¬ (d.shadow = false ∧ d.buf ≠ 0) := h
      simp only [h2, if_false]
  | cons op ops ih =>
    intro d
    simp only [MatData.lifetime]
    by_cases hex : (MatData.step sz d op).exit = Exit.assert_fail
    · rw [if_pos hex, MatData.replay_step]
      have hsh := MatData.abort_shadow sz d op hex
      cases op with
      | release =>
        simp only [MatData.step, MatData.Release] at hex
        split_ifs at hex
      | assign buf =>
        simp only [MatData.step, MatData.Assign] at hex
        split_ifs at hex
      | resize rows cols stride a =>
        simp [MatData.step, MatData.Resize, hsh, MatData.liveOf]
    · rw [if_neg hex, numaReplay_append, MatData.replay_step]
      exact ih _

theorem MatData.step_shadow (sz : Nat) (d : MatData) (op : DOp) (hs : d.shadow = true) :
    (MatData.step sz d op).events = [] ∧ (MatData.step sz d op).st.shadow = true := by
  cases op with
  | release => simp [MatData.step, MatData.Release, hs]
  | assign buf => simp [MatData.step, MatData.Assign, hs]
  | resize rows cols stride a => simp [MatData.step, MatData.Resize, hs]

theorem MatData.lifetime_shadow (sz : Nat) (ops : List DOp) :
    ∀ d : MatData, d.shadow = true → MatData.lifetime sz d ops = [] := by
  induction ops with
  | nil =>
    intro d hs
    simp [MatData.lifetime, MatData.Release, hs]
  | cons op ops ih =>
    intro d hs
    obtain ⟨he, hs1⟩ := MatData.step_shadow sz d op hs
    simp only [MatData.lifetime, he, List.nil_append, ite_eq_left_iff]
    intro _
    exact ih _ hs1

theorem MatData.Assign_shadow (sz : Nat) (d : MatData) (buf : Nat) :
    (MatData.Assign sz d buf).st.shadow = true ∧ (MatData.Assign sz d buf).st.buf = buf := by
  unfold MatData.Assign
  by_cases hs : d.shadow = true
  · simp [hs]
  · simp [hs]

/-- C3. Take any sequence of `Resize`, `Assign` and `Release` calls on one plain
storage block, with any outcome of every allocation, followed by destruction.  For a
block created empty, replaying the calls it issued succeeds and ends with nothing
live: every `xft_numa_free` names an address the block got from a still-live
`xft_numa_alloc` of its own together with the byte size of that allocation, so none
is freed twice.  A block created over a caller buffer issues no call at all, and
once `Assign` has stored a caller pointer (in whatever state the block was) no later
call is issued: a caller pointer is never freed. -/
theorem C3_frees_paired (sz : Nat) (ops : List DOp) :
    numaReplay [] (MatData.lifetime sz MatData.init ops) = some [] ∧
    (∀ buf : Nat, MatData.lifetime sz (MatData.ofBuf buf) ops = []) ∧
    (∀ (d : MatData) (buf : Nat),
      (MatData.Assign sz d buf).st.buf = buf ∧
      MatData.lifetime sz (MatData.Assign sz d buf).st ops = []) := by
  refine ⟨?_, ?_, ?_⟩
  · have h := MatData.lifetime_paired sz ops MatData.init
    simpa [MatData.liveOf, MatData.init] using h
  · intro buf
    exact MatData.lifetime_shadow sz ops _ rfl
  · intro d buf
    exact ⟨(MatData.Assign_shadow sz d buf).2,
      MatData.lifetime_shadow sz ops _ (MatData.Assign_shadow sz d buf).1⟩

/-! ## C4: matrices constructed from another matrix -/

/-- C4, the code at the failing input. A fresh matrix `m` gets its buffer at 4096 by
`Resize(2, 3)`.  The views built by the sub-range, row-range and dilated constructors
are shadows and release nothing.  The copy `Matrix(m)` is initialised with
`data(m.data)`, a member-wise copy of the owning block: `isShadow()` is false for it,
its `Release()` calls `xft_numa_free(4096, 24)`, and so does the later `Release()` of
`m`: replaying both after the one allocation fails on the second free. -/
theorem C4_copy_constructor_double_free :
    Matrix.run 4 Matrix.empty [MOp.resize 2 3 4096] = some exOwner ∧
    ((Matrix.sub 4 exOwner 0 1 0 2).isShadow = true ∧
      (Matrix.Release 4 (Matrix.sub 4 exOwner 0 1 0 2)).events = [] ∧
      (Matrix.rowRange 4 exOwner 0 1).isShadow = true ∧
      (Matrix.Release 4 (Matrix.rowRange 4 exOwner 0 1)).events = [] ∧
      (Matrix.dilated 4 exOwner 0 2 false).map Matrix.isShadow = some true ∧
      (Matrix.dilated 4 exOwner 0 2 false).map (fun v => (Matrix.Release 4 v).events)
        = some []) ∧
    (Matrix.copy exOwner).isShadow = false ∧
    (Matrix.Release 4 (Matrix.copy exOwner)).events = [Event.numa_free 4096 24] ∧
    (Matrix.Release 4 exOwner).events = [Event.numa_free 4096 24] ∧
    numaReplay [] ([Event.numa_alloc 24 4096] ++
      (Matrix.Release 4 (Matrix.copy exOwner)).events ++
      (Matrix.Release 4 exOwner).events) = none := by
  decide

/-! ## C5: dilated view -/

/-- C5, counterexample. The parent has 6 rows of stride 4, 4-byte elements, buffer at
4096.  The dilated view with `start_row = 1`, `dilation = 2` has `Row(0)` at 4112, the
parent's row 1, while the parent's `Row(0 * 2)` is 4096. -/
theorem C5_counterexample :
    (Matrix.dilated 4 exParent 1 2 false).map (fun v => Matrix.Row 4 v 0) = some 4112 ∧
    Matrix.Row 4 exParent (0 * 2) = 4096 := by
  decide

/-- C5, as amended. For every parent matrix with `R` rows, every `start_row`, every
dilation `d > 0` and every row index `i`, the dilated view is constructed and has
`Rows() == R / d`, `Cols() == parent.Cols()`, `Stride() == parent.Stride() * d` and
`view.Row(i) == parent.Row(start_row + i * d)`, the products and sums being those of
64-bit unsigned arithmetic. -/
theorem C5_dilated_view (sz : Nat) (m : Matrix) (start_row d i : Nat) (unused : Bool)
    (hd : 0 < d) :
    ∃ v : Matrix, Matrix.dilated sz m start_row d unused = some v ∧
      v.Rows = m.Rows / d ∧ v.Cols = m.Cols ∧ v.Stride = (m.Stride * d) % U64 ∧
      v.Row sz i = m.Row sz ((start_row + i * d) % U64) := by
  have hd0 : d ≠ 0 := by omega
  refine ⟨{ data := MatData.ofBuf (ptrAdd sz m.data.buf ((start_row * m.stride) % U64))
            rows := m.rows / d
            cols := m.cols
            stride := (m.stride * d) % U64 }, ?_, rfl, rfl, rfl, ?_⟩
  · simp only [Matrix.dilated, hd0, if_false]
  · simp only [Matrix.Row, MatData.ofBuf, ptrAdd]
    apply (ZMod.natCast_eq_natCast_iff' _ _ U64).mp
    simp only [Nat.cast_add, Nat.cast_mul, ZMod.natCast_mod]
    ring

/-- C5, witness: the parent of the counterexample, `start_row = 1`, `d = 2`, `i = 2`. -/
theorem C5_dilated_view_witness :
    ∃ v : Matrix, Matrix.dilated 4 exParent 1 2 false = some v ∧
      v.Rows = exParent.Rows / 2 ∧ v.Cols = exParent.Cols ∧
      v.Stride = (exParent.Stride * 2) % U64 ∧
      v.Row 4 2 = exParent.Row 4 ((1 + 2 * 2) % U64) :=
  C5_dilated_view 4 exParent 1 2 2 false (by decide)

/-! ## C6: sub-matrix and row-range views -/

/-- C6. For every parent matrix and every `(start_row, rows, start_col, cols)` the
sub-matrix view has `Data() == parent.Data() + start_row * parent.Stride() + start_col`,
`Stride() == parent.Stride()`, `Rows() == rows`, `Cols() == cols`; for every `r`, `c`
the address of `view(r, c)` is the address of `parent(start_row + r, start_col + c)`;
and the row-range constructor yields the sub-range view with `start_col = 0` and
`cols = parent.Cols()`.  Offsets are computed in 64-bit unsigned arithmetic, as the
code does. -/
theorem C6_sub_matrix_view (sz : Nat) (m : Matrix) (start_row rows start_col cols r c : Nat) :
    (Matrix.sub sz m start_row rows start_col cols).Data
      = ptrAdd sz (ptrAdd sz m.Data ((start_row * m.Stride) % U64)) start_col ∧
    (Matrix.sub sz m start_row rows start_col cols).Stride = m.Stride ∧
    (Matrix.sub sz m start_row rows start_col cols).Rows = rows ∧
    (Matrix.sub sz m start_row rows start_col cols).Cols = cols ∧
    (Matrix.sub sz m start_row rows start_col cols).elemAddr sz r c
      = m.elemAddr sz ((start_row + r) % U64) ((start_col + c) % U64) ∧
    Matrix.rowRange sz m start_row rows = Matrix.sub sz m start_row rows 0 m.Cols := by
  refine ⟨rfl, rfl, rfl, rfl, ?_, ?_⟩
  · simp only [Matrix.elemAddr, Matrix.sub, MatData.ofBuf, ptrAdd]
    apply (ZMod.natCast_eq_natCast_iff' _ _ U64).mp
    simp only [Nat.cast_add, Nat.cast_mul, ZMod.natCast_mod]
    ring
  · simp only [Matrix.rowRange, Matrix.sub, Matrix.Cols, ptrAdd, Nat.mul_zero, Nat.add_zero,
      Nat.mod_mod]

/-! ## C7: `SetQScheme` between per-tensor schemes -/

open QuantizationScheme

/-- C7, counterexample. A block under `per_tensor_symmetric` stores scale 2.0 and
zero point 5.  After `SetQScheme(per_tensor_affine)` the scalars read through
`Scales()` and `ZeroPoint()` are 1.0 and 0: they were not left unchanged. -/
theorem C7_counterexample :
    exPerTensor.qscheme = per_tensor_symmetric ∧
    MatDataQ.load exPerTensor (MatDataQ.Scales exPerTensor) = some float_two ∧
    MatDataQ.load exPerTensor (MatDataQ.ZeroPoint exPerTensor) = some 5 ∧
    MatDataQ.load (MatDataQ.SetQScheme exPerTensor per_tensor_affine).st
      (MatDataQ.Scales (MatDataQ.SetQScheme exPerTensor per_tensor_affine).st)
      = some float_one ∧
    MatDataQ.load (MatDataQ.SetQScheme exPerTensor per_tensor_affine).st
      (MatDataQ.ZeroPoint (MatDataQ.SetQScheme exPerTensor per_tensor_affine).st)
      = some 0 := by
  decide

theorem QParam.per_t_defaults (q : QParam) :
    ((q.set_per_t_scale float_one).set_per_t_zp 0).per_t_scale = float_one ∧
    ((q.set_per_t_scale float_one).set_per_t_zp 0).per_t_zp = 0 := by
  simp only [QParam.set_per_t_scale, QParam.set_per_t_zp, QParam.per_t_scale,
    QParam.per_t_zp, float_one, U32]
  constructor <;> omega

/-- C7, as amended. For every quantized storage block whose scheme is
`per_tensor_symmetric` or `per_tensor_affine`, whatever scale and zero point it
stores, `SetQScheme` to either per-tensor scheme returns normally, calls no allocator,
leaves the main buffer and its capacity unchanged, sets the scheme tag, and resets
the stored scalars to the defaults: afterwards `*Scales() == 1.0` and
`*ZeroPoint() == 0`. -/
theorem C7_SetQScheme_per_tensor (d : MatDataQ) (scheme : QuantizationScheme)
    (hd : d.qscheme = per_tensor_symmetric ∨ d.qscheme = per_tensor_affine)
    (hs : scheme = per_tensor_symmetric ∨ scheme = per_tensor_affine) :
    (MatDataQ.SetQScheme d scheme).exit = Exit.normal ∧
    (MatDataQ.SetQScheme d scheme).events = [] ∧
    (MatDataQ.SetQScheme d scheme).st.qscheme = scheme ∧
    (MatDataQ.SetQScheme d scheme).st.buf = d.buf ∧
    (MatDataQ.SetQScheme d scheme).st.buf_alloc_size = d.buf_alloc_size ∧
    MatDataQ.load (MatDataQ.SetQScheme d scheme).st
      (MatDataQ.Scales (MatDataQ.SetQScheme d scheme).st) = some float_one ∧
    MatDataQ.load (MatDataQ.SetQScheme d scheme).st
      (MatDataQ.ZeroPoint (MatDataQ.SetQScheme d scheme).st) = some 0 := by
  have hnc : ¬ (d.qscheme = per_channel_symmetric ∨ d.qscheme = per_channel_affine) := by
    rcases hd with h | h <;> simp [h]
  have hq := QParam.per_t_defaults d.qparam
  unfold MatDataQ.SetQScheme
  rw [if_pos hs, if_neg hnc]
  refine ⟨rfl, rfl, rfl, rfl, rfl, ?_, ?_⟩
  · simp only [MatDataQ.Scales, hs, if_true, MatDataQ.load]
    rw [hq.1]
  · simp only [MatDataQ.ZeroPoint, hs, if_true, MatDataQ.load]
    rw [hq.2]

/-- C7, witness: the block of the counterexample, switched to `per_tensor_affine`. -/
theorem C7_SetQScheme_per_tensor_witness :
    (MatDataQ.SetQScheme exPerTensor per_tensor_affine).exit = Exit.normal ∧
    (MatDataQ.SetQScheme exPerTensor per_tensor_affine).events = [] ∧
    (MatDataQ.SetQScheme exPerTensor per_tensor_affine).st.qscheme = per_tensor_affine ∧
    (MatDataQ.SetQScheme exPerTensor per_tensor_affine).st.buf = exPerTensor.buf ∧
    (MatDataQ.SetQScheme exPerTensor per_tensor_affine).st.buf_alloc_size
      = exPerTensor.buf_alloc_size ∧
    MatDataQ.load (MatDataQ.SetQScheme exPerTensor per_tensor_affine).st
      (MatDataQ.Scales (MatDataQ.SetQScheme exPerTensor per_tensor_affine).st)
      = some float_one ∧
    MatDataQ.load (MatDataQ.SetQScheme exPerTensor per_tensor_affine).st
      (MatDataQ.ZeroPoint (MatDataQ.SetQScheme exPerTensor per_tensor_affine).st)
      = some 0 :=
  C7_SetQScheme_per_tensor exPerTensor per_tensor_affine (by decide) (by decide)

/-! ## C8: per-channel arrays after `Resize` -/

/-- C8, the code at the failing input. A fresh block is set to
`per_channel_symmetric` and resized to 4 rows (scales array at 8192, capacity 4), then
switched to `per_channel_affine` and resized to 4 rows again.  The second `Resize`
returns normally without calling any allocator, because the recorded capacity 4 is
not below `rows`; the scheme is `per_channel_affine` and `ZeroPoint()` is null. -/
theorem C8_affine_after_symmetric_null_zero_point :
    (MatDataQ.run 1 (MatDataQ.init exGarbage)
      [QOp.setQScheme per_channel_symmetric, QOp.resize 4 8 8 4096 8192 12288,
        QOp.setQScheme per_channel_affine]).exit = Exit.normal ∧
    (MatDataQ.Resize 1 16384 20480 24576
      (MatDataQ.run 1 (MatDataQ.init exGarbage)
        [QOp.setQScheme per_channel_symmetric, QOp.resize 4 8 8 4096 8192 12288,
          QOp.setQScheme per_channel_affine]).st 4 8 8)
      = { st := { shadow := false, buf_alloc_size := 32, buf := 4096,
                  qscheme := per_channel_affine,
                  qparam := { w0 := 8192, w1 := 0, w2 := 4 } },
          events := [], exit := Exit.normal } ∧
    MatDataQ.Scales (MatDataQ.Resize 1 16384 20480 24576
      (MatDataQ.run 1 (MatDataQ.init exGarbage)
        [QOp.setQScheme per_channel_symmetric, QOp.resize 4 8 8 4096 8192 12288,
          QOp.setQScheme per_channel_affine]).st 4 8 8).st = Loc.addr 8192 ∧
    MatDataQ.ZeroPoint (MatDataQ.Resize 1 16384 20480 24576
      (MatDataQ.run 1 (MatDataQ.init exGarbage)
        [QOp.setQScheme per_channel_symmetric, QOp.resize 4 8 8 4096 8192 12288,
          QOp.setQScheme per_channel_affine]).st 4 8 8).st = Loc.addr 0 := by
  decide

/-! ## C9: the quantization cycle -/

theorem MatDataQ.init_per_channel_affine (g : QParam) :
    (MatDataQ.SetQScheme (MatDataQ.init g) per_channel_affine).st
      = { shadow := false, buf_alloc_size := 0, buf := 0, qscheme := per_channel_affine,
          qparam := { w0 := 0, w1 := 0, w2 := 0 } } := by
  simp [MatDataQ.SetQScheme, MatDataQ.init, QParam.set_per_c_scales, QParam.set_per_c_zps,
    QParam.set_per_c_alloc_size]

theorem MatDataQ.Resize_first_affine (sz a a_scales a_zps rows cols : Nat)
    (hrows : 0 < rows) (ha : a ≠ 0) (has : a_scales ≠ 0) (haz : a_zps ≠ 0) :
    MatDataQ.Resize sz a a_scales a_zps
      { shadow := false, buf_alloc_size := 0, buf := 0, qscheme := per_channel_affine,
        qparam := { w0 := 0, w1 := 0, w2 := 0 } } rows cols cols
      = { st := { shadow := false
                  buf_alloc_size := (rows * cols) % U64
                  buf := if 0 < (rows * cols) % U64 then a else 0
                  qscheme := per_channel_affine
                  qparam := { w0 := a_scales, w1 := a_zps, w2 := rows } }
          events :=
            (if 0 < (rows * cols) % U64
              then [Event.numa_alloc ((sz * ((rows * cols) % U64)) % U64) a] else [])
            ++ [Event.alloc ((4 * rows) % U64) a_scales, Event.alloc ((4 * rows) % U64) a_zps]
          exit := Exit.normal } := by
  by_cases hsize : 0 < (rows * cols) % U64
  · simp [MatDataQ.Resize, MatDataQ.resizeBuf, MatDataQ.resizeQParam, hsize, ha, has, haz,
      hrows, QParam.set_per_c_scales, QParam.set_per_c_zps, QParam.set_per_c_alloc_size,
      QParam.per_c_scales, QParam.per_c_zps, QParam.per_c_alloc_size]
  · have h0 : (rows * cols) % U64 = 0 := by omega
    simp [MatDataQ.Resize, MatDataQ.resizeBuf, MatDataQ.resizeQParam, h0, has, haz,
      hrows, QParam.set_per_c_scales, QParam.set_per_c_zps, QParam.set_per_c_alloc_size,
      QParam.per_c_scales, QParam.per_c_zps, QParam.per_c_alloc_size]

/-- C9. On a freshly constructed quantized block, whatever bytes its `qparam` holds,
the scheme is undefined and `Scales()` and `ZeroPoint()` are null.  For every
`rows > 0` and every `cols` (so for `cols > 0`), after `SetQScheme(per_channel_affine)` a
`Resize(rows, cols, cols)` whose allocations succeed returns normally, having asked
for two arrays of `4 * rows` bytes; `Scales()` and `ZeroPoint()` are then those two
non-null arrays and the recorded per-channel capacity is `rows`.  A following
`SetQScheme(per_tensor_affine)` frees each of the two arrays exactly once and calls
nothing else; afterwards `Scales()` and `ZeroPoint()` point at the per-tensor scalars,
which hold 1.0 and 0. -/
theorem C9_quantization_cycle (sz a a_scales a_zps rows cols : Nat) (g : QParam)
    (hrows : 0 < rows) (ha : a ≠ 0) (has : a_scales ≠ 0) (haz : a_zps ≠ 0) :
    let d0 := MatDataQ.init g
    let r := MatDataQ.Resize sz a a_scales a_zps
      (MatDataQ.SetQScheme d0 per_channel_affine).st rows cols cols
    let r3 := MatDataQ.SetQScheme r.st per_tensor_affine
    (d0.qscheme = qscheme_undefined ∧ d0.Scales = Loc.addr 0 ∧ d0.ZeroPoint = Loc.addr 0) ∧
    (r.exit = Exit.normal ∧
      r.events =
        (if 0 < (rows * cols) % U64
          then [Event.numa_alloc ((sz * ((rows * cols) % U64)) % U64) a] else [])
        ++ [Event.alloc ((4 * rows) % U64) a_scales, Event.alloc ((4 * rows) % U64) a_zps] ∧
      r.st.Scales = Loc.addr a_scales ∧ r.st.Scales ≠ Loc.addr 0 ∧
      r.st.ZeroPoint = Loc.addr a_zps ∧ r.st.ZeroPoint ≠ Loc.addr 0 ∧
      rows ≤ r.st.qparam.per_c_alloc_size) ∧
    (r3.exit = Exit.normal ∧
      r3.events = [Event.free a_scales, Event.free a_zps] ∧
      r3.st.Scales = Loc.per_t_scale ∧ r3.st.ZeroPoint = Loc.per_t_zp ∧
      MatDataQ.load r3.st r3.st.Scales = some float_one ∧
      MatDataQ.load r3.st r3.st.ZeroPoint = some 0) := by
  intro d0 r r3
  have hr : r =
      { st := { shadow := false
                buf_alloc_size := (rows * cols) % U64
                buf := if 0 < (rows * cols) % U64 then a else 0
                qscheme := per_channel_affine
                qparam := { w0 := a_scales, w1 := a_zps, w2 := rows } }
        events :=
          (if 0 < (rows * cols) % U64
            then [Event.numa_alloc ((sz * ((rows * cols) % U64)) % U64) a] else [])
          ++ [Event.alloc ((4 * rows) % U64) a_scales, Event.alloc ((4 * rows) % U64) a_zps]
        exit := Exit.normal } := by
    show MatDataQ.Resize sz a a_scales a_zps
      (MatDataQ.SetQScheme (MatDataQ.init g) per_channel_affine).st rows cols cols = _
    rw [MatDataQ.init_per_channel_affine]
    exact MatDataQ.Resize_first_affine sz a a_scales a_zps rows cols hrows ha has haz
  have hq := QParam.per_t_defaults r.st.qparam
  have hS : r.st.Scales = Loc.addr a_scales := by rw [hr]; rfl
  have hZ : r.st.ZeroPoint = Loc.addr a_zps := by rw [hr]; rfl
  refine ⟨⟨rfl, rfl, rfl⟩, ⟨?_, ?_, hS, ?_, hZ, ?_, ?_⟩, ⟨rfl, ?_, rfl, rfl, ?_, ?_⟩⟩
  · rw [hr]
  · rw [hr]
  · rw [hS]
    intro h
    exact has (Loc.addr.inj h)
  · rw [hZ]
    intro h
    exact haz (Loc.addr.inj h)
  · rw [hr]; exact le_refl _
  · show (MatDataQ.SetQScheme r.st per_tensor_affine).events = _
    rw [hr]
    simp [MatDataQ.SetQScheme, QParam.per_c_scales, QParam.per_c_zps, has, haz]
  · show some ((r.st.qparam.set_per_t_scale float_one).set_per_t_zp 0).per_t_scale = _
    rw [hq.1]
  · show some ((r.st.qparam.set_per_t_scale float_one).set_per_t_zp 0).per_t_zp = _
    rw [hq.2]

/-- C9, witness: the case of the specification, `rows = 100` and `cols = 8`, on
one-byte elements, with allocations at 4096, 8192 and 12288. -/
theorem C9_quantization_cycle_witness :
    let d0 := MatDataQ.init exGarbage
    let r := MatDataQ.Resize 1 4096 8192 12288
      (MatDataQ.SetQScheme d0 per_channel_affine).st 100 8 8
    let r3 := MatDataQ.SetQScheme r.st per_tensor_affine
    (d0.qscheme = qscheme_undefined ∧ d0.Scales = Loc.addr 0 ∧ d0.ZeroPoint = Loc.addr 0) ∧
    (r.exit = Exit.normal ∧
      r.events =
        (if 0 < (100 * 8) % U64
          then [Event.numa_alloc ((1 * ((100 * 8) % U64)) % U64) 4096] else [])
        ++ [Event.alloc ((4 * 100) % U64) 8192, Event.alloc ((4 * 100) % U64) 12288] ∧
      r.st.Scales = Loc.addr 8192 ∧ r.st.Scales ≠ Loc.addr 0 ∧
      r.st.ZeroPoint = Loc.addr 12288 ∧ r.st.ZeroPoint ≠ Loc.addr 0 ∧
      100 ≤ r.st.qparam.per_c_alloc_size) ∧
    (r3.exit = Exit.normal ∧
      r3.events = [Event.free 8192, Event.free 12288] ∧
      r3.st.Scales = Loc.per_t_scale ∧ r3.st.ZeroPoint = Loc.per_t_zp ∧
      MatDataQ.load r3.st r3.st.Scales = some float_one ∧
      MatDataQ.load r3.st r3.st.ZeroPoint = some 0) :=
  C9_quantization_cycle 1 4096 8192 12288 100 8 exGarbage
    (by decide) (by decide) (by decide) (by decide)

/-! ## C10: `Release` of a per-channel block -/

/-- C10, the code at the failing input. A fresh block is set to
`per_channel_affine` and resized to 4 rows (scales at 8192, zero points at 12288),
then switched to `per_channel_symmetric`.  `Release()` frees the main buffer and the
scales array, resets the capacity to 0 and keeps the scheme tag, but it does not
free the zero-point array: `per_c.zps` is still 12288, and after the destructor has
run `Release()` once more the allocation 12288 is still live. -/
theorem C10_Release_symmetric_leaks_zero_points :
    (MatDataQ.run 1 (MatDataQ.init exGarbage)
      [QOp.setQScheme per_channel_affine, QOp.resize 4 8 8 4096 8192 12288,
        QOp.setQScheme per_channel_symmetric])
      = { st := { shadow := false, buf_alloc_size := 32, buf := 4096,
                  qscheme := per_channel_symmetric,
                  qparam := { w0 := 8192, w1 := 12288, w2 := 4 } },
          events := [Event.numa_alloc 32 4096, Event.alloc 16 8192, Event.alloc 16 12288],
          exit := Exit.normal } ∧
    MatDataQ.Release 1
      { shadow := false, buf_alloc_size := 32, buf := 4096,
        qscheme := per_channel_symmetric,
        qparam := { w0 := 8192, w1 := 12288, w2 := 4 } }
      = { st := { shadow := false, buf_alloc_size := 0, buf := 0,
                  qscheme := per_channel_symmetric,
                  qparam := { w0 := 0, w1 := 12288, w2 := 0 } },
          events := [Event.numa_free 4096 32, Event.free 8192],
          exit := Exit.normal } ∧
    heapReplay []
      (MatDataQ.run 1 (MatDataQ.init exGarbage)
        [QOp.setQScheme per_channel_affine, QOp.resize 4 8 8 4096 8192 12288,
          QOp.setQScheme per_channel_symmetric, QOp.release, QOp.release]).events
      = some [12288] := by
  decide

/-! ## C11: `SetQScheme` between per-channel schemes -/

/-- C11. For every quantized storage block whose scheme is per-channel, `SetQScheme`
to either per-channel scheme returns normally, issues no allocation and no free, and
changes nothing but the scheme tag: the scales pointer, the zero-point pointer, the
per-channel capacity, the main buffer, its capacity and the shadow flag are
unchanged. -/
theorem C11_SetQScheme_per_channel (d : MatDataQ) (scheme : QuantizationScheme)
    (hd : d.qscheme = per_channel_symmetric ∨ d.qscheme = per_channel_affine)
    (hs : scheme = per_channel_symmetric ∨ scheme = per_channel_affine) :
    MatDataQ.SetQScheme d scheme
      = { st := { d with qscheme := scheme }, events := [], exit := Exit.normal } ∧
    (MatDataQ.SetQScheme d scheme).events = [] ∧
    (MatDataQ.SetQScheme d scheme).st.qscheme = scheme ∧
    (MatDataQ.SetQScheme d scheme).st.qparam.per_c_scales = d.qparam.per_c_scales ∧
    (MatDataQ.SetQScheme d scheme).st.qparam.per_c_zps = d.qparam.per_c_zps ∧
    (MatDataQ.SetQScheme d scheme).st.qparam.per_c_alloc_size = d.qparam.per_c_alloc_size ∧
    (MatDataQ.SetQScheme d scheme).st.buf = d.buf ∧
    (MatDataQ.SetQScheme d scheme).st.buf_alloc_size = d.buf_alloc_size := by
  have hnt : ¬ (scheme = per_tensor_symmetric ∨ scheme = per_tensor_affine) := by
    rcases hs with h | h <;> simp [h]
  have hkeep : ¬ (d.qscheme ≠ per_channel_symmetric ∧ d.qscheme ≠ per_channel_affine) := by
    rcases hd with h | h <;> simp [h]
  have hall : MatDataQ.SetQScheme d scheme
      = { st := { d with qscheme := scheme }, events := [], exit := Exit.normal } := by
    unfold MatDataQ.SetQScheme
    rw [if_neg hnt, if_pos hs, if_neg hkeep]
  refine ⟨hall, ?_, ?_, ?_, ?_, ?_, ?_, ?_⟩ <;> rw [hall]

/-- C11, witness: a per-channel affine block is switched to the symmetric scheme. -/
theorem C11_SetQScheme_per_channel_witness :
    MatDataQ.SetQScheme exPerChannel per_channel_symmetric
      = { st := { exPerChannel with qscheme := per_channel_symmetric }, events := [],
          exit := Exit.normal } ∧
    (MatDataQ.SetQScheme exPerChannel per_channel_symmetric).events = [] ∧
    (MatDataQ.SetQScheme exPerChannel per_channel_symmetric).st.qscheme
      = per_channel_symmetric ∧
    (MatDataQ.SetQScheme exPerChannel per_channel_symmetric).st.qparam.per_c_scales
      = exPerChannel.qparam.per_c_scales ∧
    (MatDataQ.SetQScheme exPerChannel per_channel_symmetric).st.qparam.per_c_zps
      = exPerChannel.qparam.per_c_zps ∧
    (MatDataQ.SetQScheme exPerChannel per_channel_symmetric).st.qparam.per_c_alloc_size
      = exPerChannel.qparam.per_c_alloc_size ∧
    (MatDataQ.SetQScheme exPerChannel per_channel_symmetric).st.buf = exPerChannel.buf ∧
    (MatDataQ.SetQScheme exPerChannel per_channel_symmetric).st.buf_alloc_size
      = exPerChannel.buf_alloc_size :=
  C11_SetQScheme_per_channel exPerChannel per_channel_symmetric (by decide) (by decide)

/-! ## C13: `Matrix::Release` -/

/-- C13. `Matrix::Release()` returns normally and sets `Rows()`, `Cols()` and
`Stride()` to 0 on every matrix.  On an owning matrix `Data()` becomes null and a held
buffer is freed by exactly one `xft_numa_free`, with the recorded capacity; on a
shadow matrix no allocator call is issued (and `Data()` is kept).  In both cases a
second `Release()` issues no call and leaves the state as it is. -/
theorem C13_Release (sz : Nat) (m : Matrix) :
    (Matrix.Release sz m).exit = Exit.normal ∧
    (Matrix.Release sz m).st.Rows = 0 ∧
    (Matrix.Release sz m).st.Cols = 0 ∧
    (Matrix.Release sz m).st.Stride = 0 ∧
    (Matrix.Release sz m).st.Data = (if m.isShadow = true then m.Data else 0) ∧
    (Matrix.Release sz m).events
      = (if m.isShadow = false ∧ m.Data ≠ 0
          then [Event.numa_free m.Data ((sz * m.data.buf_alloc_size) % U64)] else []) ∧
    Matrix.Release sz (Matrix.Release sz m).st
      = { st := (Matrix.Release sz m).st, events := [], exit := Exit.normal } := by
  unfold Matrix.Release MatData.Release Matrix.isShadow Matrix.Data Matrix.Rows Matrix.Cols
    Matrix.Stride
  by_cases hs : m.data.shadow = true
  · simp [hs]
  · have hs2 : m.data.shadow = false := by simpa using hs
    by_cases hb : m.data.buf = 0
    · simp [hs2, hb]
    · simp [hs2, hb]

/-! ## C14: `Resize` whose allocation fails -/

/-- C14. For every owning storage block and every `Resize(rows, cols, stride)` whose
required capacity (the 64-bit product `rows * stride`) exceeds the recorded one and
whose allocation fails: `std::bad_alloc` is thrown; the calls issued are the one
`xft_numa_free` of the previous buffer, if there was one, with its recorded capacity,
and then the failed `xft_numa_alloc`; the buffer is null afterwards; and neither a
following `Release()` nor the destructor issues a call. -/
theorem C14_failed_allocation (sz : Nat) (d : MatData) (rows cols stride : Nat)
    (hown : d.shadow = false) (hgrow : d.buf_alloc_size < (rows * stride) % U64) :
    (MatData.Resize sz 0 d rows cols stride).exit = Exit.bad_alloc ∧
    (MatData.Resize sz 0 d rows cols stride).events
      = (if d.buf ≠ 0 then [Event.numa_free d.buf ((sz * d.buf_alloc_size) % U64)] else [])
        ++ [Event.numa_alloc ((sz * ((rows * stride) % U64)) % U64) 0] ∧
    (MatData.Resize sz 0 d rows cols stride).st.buf = 0 ∧
    (MatData.Release sz (MatData.Resize sz 0 d rows cols stride).st).events = [] ∧
    MatData.lifetime sz (MatData.Resize sz 0 d rows cols stride).st [] = [] := by
  have hc : ¬ (d.buf_alloc_size ≥ (rows * stride) % U64) := by omega
  have hr : MatData.Resize sz 0 d rows cols stride
      = { st := { d with buf_alloc_size := (rows * stride) % U64, buf := 0 }
          events :=
            (if d.buf ≠ 0 then [Event.numa_free d.buf ((sz * d.buf_alloc_size) % U64)]
              else [])
            ++ [Event.numa_alloc ((sz * ((rows * stride) % U64)) % U64) 0]
          exit := Exit.bad_alloc } := by
    unfold MatData.Resize
    simp only [hown, Bool.false_eq_true, if_false, hc, if_true]
  rw [hr]
  refine ⟨rfl, rfl, rfl, ?_, ?_⟩
  · simp [MatData.Release]
  · simp [MatData.lifetime, MatData.Release]

/-- C14, witness: the block holding 6 elements at 4096 is resized to 3 x 3 and the
allocation fails. -/
theorem C14_failed_allocation_witness :
    (MatData.Resize 4 0 exOwner.data 3 3 3).exit = Exit.bad_alloc ∧
    (MatData.Resize 4 0 exOwner.data 3 3 3).events
      = (if exOwner.data.buf ≠ 0
          then [Event.numa_free exOwner.data.buf ((4 * exOwner.data.buf_alloc_size) % U64)]
          else [])
        ++ [Event.numa_alloc ((4 * ((3 * 3) % U64)) % U64) 0] ∧
    (MatData.Resize 4 0 exOwner.data 3 3 3).st.buf = 0 ∧
    (MatData.Release 4 (MatData.Resize 4 0 exOwner.data 3 3 3).st).events = [] ∧
    MatData.lifetime 4 (MatData.Resize 4 0 exOwner.data 3 3 3).st [] = [] :=
  C14_failed_allocation 4 exOwner.data 3 3 3 (by decide) (by decide)

/-! ## States of a matrix under all calls -/

theorem Matrix.wf_constructed (m : Matrix) (h : Matrix.constructed m) : Matrix.WF m := by
  rcases h with h | ⟨hs, hc⟩
  · subst h
    simp [Matrix.WF, Matrix.empty, MatData.init]
  · exact ⟨fun _ => hc, fun hf => by rw [hs] at hf; cases hf⟩

theorem MatData.Resize_cap (sz a : Nat) (d : MatData) (rows cols stride : Nat)
    (hs : d.shadow = false) :
    (rows * stride) % U64 ≤ (MatData.Resize sz a d rows cols stride).st.buf_alloc_size := by
  unfold MatData.Resize
  simp only [hs, Bool.false_eq_true, if_false]
  by_cases hc : d.buf_alloc_size ≥ (rows * stride) % U64
  · rw [if_pos hc]
    exact hc
  · rw [if_neg hc]

theorem Matrix.wf_Release (sz : Nat) (m : Matrix) : Matrix.WF (Matrix.Release sz m).st := by
  constructor
  · intro _
    simp [Matrix.Release, MatData.Release_cap]
  · intro _
    simp [Matrix.Release]

theorem MatData.Assign_cap (sz : Nat) (d : MatData) (buf : Nat)
    (h : d.shadow = true → d.buf_alloc_size = 0) :
    (MatData.Assign sz d buf).st.buf_alloc_size = 0 := by
  unfold MatData.Assign
  by_cases hs : d.shadow = true
  · rw [if_pos hs]
    exact h hs
  · rw [if_neg hs]

theorem Matrix.wf_call (sz : Nat) (m : Matrix) (c : MCall) (h : Matrix.WF m)
    (hex : (Matrix.call sz m c).exit ≠ Exit.assert_fail) :
    Matrix.WF (Matrix.call sz m c).st := by
  cases c with
  | release => exact Matrix.wf_Release sz m
  | assign buf rows cols stride =>
    simp only [Matrix.call, Matrix.Assign]
    constructor
    · intro _
      exact MatData.Assign_cap sz m.data buf h.1
    · intro hf
      rw [(MatData.Assign_shadow sz m.data buf).1] at hf
      cases hf
  | resize rows cols a =>
    simp only [Matrix.call] at hex ⊢
    unfold Matrix.Resize at hex ⊢
    by_cases hs : m.data.shadow = true
    · rw [if_pos hs] at hex
      exact absurd rfl hex
    · have hs2 : m.data.shadow = false := by simpa using hs
      rw [if_neg hs]
      by_cases h1 : m.rows = rows ∧ m.cols = cols
      · rw [if_pos h1]
        exact h
      · rw [if_neg h1]
        by_cases h2 : rows ≤ 0 ∨ cols ≤ 0
        · rw [if_pos h2]
          exact Matrix.wf_Release sz m
        · rw [if_neg h2]
          constructor
          · intro hf
            have := MatData.Resize_shadow sz a m.data rows cols cols
            simp only [] at hf
            rw [this, hs2] at hf
            cases hf
          · intro _
            exact MatData.Resize_cap sz a m.data rows cols cols hs2
  | resize3 rows cols stride a =>
    simp only [Matrix.call] at hex ⊢
    unfold Matrix.Resize3 at hex ⊢
    by_cases hs : m.data.shadow = true
    · rw [if_pos hs] at hex
      exact absurd rfl hex
    · have hs2 : m.data.shadow = false := by simpa using hs
      rw [if_neg hs]
      by_cases h1 : m.rows = rows ∧ m.cols = cols ∧ m.stride = stride
      · rw [if_pos h1]
        exact h
      · rw [if_neg h1]
        by_cases h2 : rows ≤ 0 ∨ cols ≤ 0 ∨ stride ≤ 0
        · rw [if_pos h2]
          exact Matrix.wf_Release sz m
        · rw [if_neg h2]
          constructor
          · intro hf
            have := MatData.Resize_shadow sz a m.data rows cols stride
            simp only [] at hf
            rw [this, hs2] at hf
            cases hf
          · intro _
            exact MatData.Resize_cap sz a m.data rows cols stride hs2

theorem Matrix.wf_after (sz : Nat) (calls : List MCall) :
    ∀ (m m1 : Matrix), Matrix.WF m → Matrix.after sz m calls = some m1 → Matrix.WF m1 := by
  induction calls with
  | nil =>
    intro m m1 h hr
    simp only [Matrix.after, Option.some.injEq] at hr
    exact hr ▸ h
  | cons c cs ih =>
    intro m m1 h hr
    simp only [Matrix.after] at hr
    by_cases hex : (Matrix.call sz m c).exit = Exit.assert_fail
    · simp [hex] at hr
    · rw [if_neg hex] at hr
      exact ih _ _ (Matrix.wf_call sz m c h hex) hr

/-! ## C12: `Matrix::Assign` -/

/-- C12. Let `m` be any state of a matrix: the state reached from a constructed
matrix by any sequence of `Resize`, `Release` and `Assign` calls, thrown allocations
included.  For every `buf`, `rows`, `cols`, `stride`, the call
`Assign(buf, rows, cols, stride)` returns normally and leaves the matrix a shadow with
`Data() == buf`, `Rows() == rows`, `Cols() == cols`, `Stride() == stride` and recorded
capacity 0.  If the matrix owned a non-null buffer, that buffer is freed by exactly
one `xft_numa_free` with its recorded capacity; otherwise, and so whenever the matrix
was already a shadow, no call is issued.  A `Release()` after it issues no call. -/
theorem C12_Assign (sz : Nat) (init : Matrix) (calls : List MCall) (m : Matrix)
    (buf rows cols stride : Nat)
    (hinit : Matrix.constructed init) (hreach : Matrix.after sz init calls = some m) :
    (Matrix.Assign sz m buf rows cols stride).exit = Exit.normal ∧
    (Matrix.Assign sz m buf rows cols stride).st.isShadow = true ∧
    (Matrix.Assign sz m buf rows cols stride).st.Data = buf ∧
    (Matrix.Assign sz m buf rows cols stride).st.Rows = rows ∧
    (Matrix.Assign sz m buf rows cols stride).st.Cols = cols ∧
    (Matrix.Assign sz m buf rows cols stride).st.Stride = stride ∧
    (Matrix.Assign sz m buf rows cols stride).st.data.buf_alloc_size = 0 ∧
    (Matrix.Assign sz m buf rows cols stride).events
      = (if m.isShadow = false ∧ m.Data ≠ 0
          then [Event.numa_free m.Data ((sz * m.data.buf_alloc_size) % U64)] else []) ∧
    (Matrix.Release sz (Matrix.Assign sz m buf rows cols stride).st).events = [] := by
  have hwf := Matrix.wf_after sz calls _ _ (Matrix.wf_constructed init hinit) hreach
  have hsh := MatData.Assign_shadow sz m.data buf
  refine ⟨rfl, hsh.1, hsh.2, rfl, rfl, rfl, MatData.Assign_cap sz m.data buf hwf.1, ?_, ?_⟩
  · simp only [Matrix.Assign, Matrix.isShadow, Matrix.Data]
    unfold MatData.Assign MatData.Release
    by_cases hs : m.data.shadow = true
    · simp [hs]
    · have hs2 : m.data.shadow = false := by simpa using hs
      by_cases hb : m.data.buf = 0
      · simp [hs2, hb]
      · simp [hs2, hb]
  · have h1 : (Matrix.Assign sz m buf rows cols stride).st.data.shadow = true := hsh.1
    simp [Matrix.Release, MatData.Release, h1]

/-- C12, witness: the owning matrix with 6 elements at 4096 is assigned the caller
buffer 20480 with shape 2 x 2 and stride 4. -/
theorem C12_Assign_witness :
    (Matrix.Assign 4 exOwner 20480 2 2 4).exit = Exit.normal ∧
    (Matrix.Assign 4 exOwner 20480 2 2 4).st.isShadow = true ∧
    (Matrix.Assign 4 exOwner 20480 2 2 4).st.Data = 20480 ∧
    (Matrix.Assign 4 exOwner 20480 2 2 4).st.Rows = 2 ∧
    (Matrix.Assign 4 exOwner 20480 2 2 4).st.Cols = 2 ∧
    (Matrix.Assign 4 exOwner 20480 2 2 4).st.Stride = 4 ∧
    (Matrix.Assign 4 exOwner 20480 2 2 4).st.data.buf_alloc_size = 0 ∧
    (Matrix.Assign 4 exOwner 20480 2 2 4).events
      = (if exOwner.isShadow = false ∧ exOwner.Data ≠ 0
          then [Event.numa_free exOwner.Data ((4 * exOwner.data.buf_alloc_size) % U64)]
          else []) ∧
    (Matrix.Release 4 (Matrix.Assign 4 exOwner 20480 2 2 4).st).events = [] :=
  C12_Assign 4 Matrix.empty [MCall.resize 2 3 4096] exOwner 20480 2 2 4
    (by decide) (by decide)

/-! ## C18: the recorded capacity covers the shape -/

/-- C18. In every state an owning matrix reaches from the empty matrix by `Resize`
(both forms) and `Release` calls (thrown allocations included; `Assign` calls may be
among them as long as the state is owning), the recorded capacity is at least
`Rows() * Stride()`, the product being the 64-bit one.  Hence, when
`Cols() <= Stride()` and `Rows() * Stride()` does not overflow 64 bits, every offset
`r * Stride() + c` with `r < Rows()` and `c < Cols()` is below the capacity. -/
theorem C18_capacity_covers_shape (sz : Nat) (calls : List MCall) (m : Matrix)
    (hreach : Matrix.after sz Matrix.empty calls = some m) (hown : m.isShadow = false) :
    (m.Rows * m.Stride) % U64 ≤ m.data.buf_alloc_size ∧
    (m.Cols ≤ m.Stride → m.Rows * m.Stride < U64 →
      ∀ r c : Nat, r < m.Rows → c < m.Cols → r * m.Stride + c < m.data.buf_alloc_size) := by
  have hwf := Matrix.wf_after sz calls _ _
    (Matrix.wf_constructed Matrix.empty (Or.inl rfl)) hreach
  have hcap : (m.rows * m.stride) % U64 ≤ m.data.buf_alloc_size := hwf.2 hown
  refine ⟨hcap, ?_⟩
  intro hcs hfit r c hr hc
  have hfit2 : m.rows * m.stride < U64 := hfit
  rw [Nat.mod_eq_of_lt hfit2] at hcap
  have h1 : (r + 1) * m.stride ≤ m.rows * m.stride := Nat.mul_le_mul_right _ hr
  have h2 : (r + 1) * m.stride = r * m.stride + m.stride := by ring
  have h3 : c < m.stride := lt_of_lt_of_le hc hcs
  show r * m.stride + c < m.data.buf_alloc_size
  omega

/-- C18, witness: the matrix left by `Resize(2, 3)`; its last element, at offset
`1 * 3 + 2`, is below the capacity 6. -/
theorem C18_capacity_covers_shape_witness :
    (exOwner.Rows * exOwner.Stride) % U64 ≤ exOwner.data.buf_alloc_size ∧
    1 * exOwner.Stride + 2 < exOwner.data.buf_alloc_size :=
  ⟨(C18_capacity_covers_shape 4 [MCall.resize 2 3 4096] exOwner (by decide) (by decide)).1,
   (C18_capacity_covers_shape 4 [MCall.resize 2 3 4096] exOwner (by decide) (by decide)).2
     (by decide) (by decide) 1 2 (by decide) (by decide)⟩

/-! ## C15: `Resize` beyond the allocated capacity -/

/-- C15, counterexample. The owning matrix of the examples holds 6 elements at 4096
and is resized to 3 x 3 with stride 3, which needs 9.  The old buffer is freed first,
so the allocator is free to hand the same address out again: when it returns 4096 the
call returns normally and `Data()` is the pointer held before.  And `Resize(3, 0, 3)`,
which also needs 9, releases the matrix: the recorded capacity is then 0, not 9. -/
theorem C15_counterexample :
    Matrix.after 4 Matrix.empty [MCall.resize 2 3 4096] = some exOwner ∧
    (exOwner.isShadow = false ∧ exOwner.Data = 4096 ∧
      exOwner.data.buf_alloc_size < (3 * 3) % U64 ∧
      (Matrix.Resize3 4 4096 exOwner 3 3 3).exit = Exit.normal ∧
      (Matrix.Resize3 4 4096 exOwner 3 3 3).events
        = [Event.numa_free 4096 24, Event.numa_alloc 36 4096] ∧
      (Matrix.Resize3 4 4096 exOwner 3 3 3).st.Data = exOwner.Data) ∧
    ((Matrix.Resize3 4 8192 exOwner 3 0 3).exit = Exit.normal ∧
      (Matrix.Resize3 4 8192 exOwner 3 0 3).st.data.buf_alloc_size = 0) := by
  decide

theorem MatData.Resize_grow (sz a : Nat) (d : MatData) (rows cols stride : Nat)
    (hs : d.shadow = false) (hg : d.buf_alloc_size < (rows * stride) % U64) :
    MatData.Resize sz a d rows cols stride
      = { st := { d with buf_alloc_size := (rows * stride) % U64, buf := a }
          events :=
            (if d.buf ≠ 0 then [Event.numa_free d.buf ((sz * d.buf_alloc_size) % U64)]
              else [])
            ++ [Event.numa_alloc ((sz * ((rows * stride) % U64)) % U64) a]
          exit := if a = 0 then Exit.bad_alloc else Exit.normal } := by
  have hc : ¬ (d.buf_alloc_size ≥ (rows * stride) % U64) := by omega
  unfold MatData.Resize
  simp only [hs, Bool.false_eq_true, if_false, hc]

theorem exit_normal_iff (a : Nat) :
    (if a = 0 then Exit.bad_alloc else Exit.normal) = Exit.normal ↔ a ≠ 0 := by
  by_cases ha : a = 0 <;> simp [ha]

theorem pos_of_mod_pos (x y cap : Nat) (h : cap < (x * y) % U64) : 0 < x ∧ 0 < y := by
  constructor
  · rcases Nat.eq_zero_or_pos x with hx | hx
    · subst hx
      simp at h
    · exact hx
  · rcases Nat.eq_zero_or_pos y with hy | hy
    · subst hy
      simp at h
    · exact hy

/-- C15, as amended. Let `m` be any state of a non-view matrix (reached from a
constructed matrix by any calls).  For every `Resize(rows, cols, stride)` with
`cols > 0` whose required capacity, the 64-bit product `rows * stride`, is strictly
greater than the recorded capacity, and whatever the allocator returns: the matrix
frees the buffer it holds, if any, with its recorded capacity and then asks
`xft_numa_alloc` for `sizeof(T) * rows * stride` bytes; the recorded capacity becomes
exactly `rows * stride`; `Data()` becomes the pointer the allocator returned, which
may be the address just freed; and the call returns normally exactly when that
pointer is non-null.  The same holds for `Resize(rows, cols)` with `stride = cols`
when the call changes rows or cols. -/
theorem C15_Resize_beyond_capacity (sz a : Nat) (init : Matrix) (calls : List MCall)
    (m : Matrix) (rows cols stride : Nat)
    (hinit : Matrix.constructed init) (hreach : Matrix.after sz init calls = some m)
    (hown : m.isShadow = false) (hcols : 0 < cols) :
    (m.data.buf_alloc_size < (rows * stride) % U64 →
      (Matrix.Resize3 sz a m rows cols stride).events
        = (if m.Data ≠ 0
            then [Event.numa_free m.Data ((sz * m.data.buf_alloc_size) % U64)] else [])
          ++ [Event.numa_alloc ((sz * ((rows * stride) % U64)) % U64) a] ∧
      ((Matrix.Resize3 sz a m rows cols stride).exit = Exit.normal ↔ a ≠ 0) ∧
      (Matrix.Resize3 sz a m rows cols stride).st.Data = a ∧
      (Matrix.Resize3 sz a m rows cols stride).st.data.buf_alloc_size
        = (rows * stride) % U64) ∧
    (m.data.buf_alloc_size < (rows * cols) % U64 → ¬ (m.Rows = rows ∧ m.Cols = cols) →
      (Matrix.Resize sz a m rows cols).events
        = (if m.Data ≠ 0
            then [Event.numa_free m.Data ((sz * m.data.buf_alloc_size) % U64)] else [])
          ++ [Event.numa_alloc ((sz * ((rows * cols) % U64)) % U64) a] ∧
      ((Matrix.Resize sz a m rows cols).exit = Exit.normal ↔ a ≠ 0) ∧
      (Matrix.Resize sz a m rows cols).st.Data = a ∧
      (Matrix.Resize sz a m rows cols).st.data.buf_alloc_size = (rows * cols) % U64) := by
  have hwf := Matrix.wf_after sz calls _ _ (Matrix.wf_constructed init hinit) hreach
  have hs : m.data.shadow = false := hown
  have hcap : (m.rows * m.stride) % U64 ≤ m.data.buf_alloc_size := hwf.2 hs
  have hsh : ¬ (m.data.shadow = true) := by simp [hs]
  constructor
  · intro hg
    have hpos := pos_of_mod_pos rows stride _ hg
    have h1 : ¬ (m.rows = rows ∧ m.cols = cols ∧ m.stride = stride) := by
      rintro ⟨hr, _, hst⟩
      rw [hr, hst] at hcap
      omega
    have h2 : ¬ (rows ≤ 0 ∨ cols ≤ 0 ∨ stride ≤ 0) := by omega
    unfold Matrix.Resize3
    rw [if_neg hsh, if_neg h1, if_neg h2, MatData.Resize_grow sz a m.data rows cols stride hs hg]
    exact ⟨rfl, exit_normal_iff a, rfl, rfl⟩
  · intro hg hchange
    have hpos := pos_of_mod_pos rows cols _ hg
    have h1 : ¬ (m.rows = rows ∧ m.cols = cols) := hchange
    have h2 : ¬ (rows ≤ 0 ∨ cols ≤ 0) := by omega
    unfold Matrix.Resize
    rw [if_neg hsh, if_neg h1, if_neg h2, MatData.Resize_grow sz a m.data rows cols cols hs hg]
    exact ⟨rfl, exit_normal_iff a, rfl, rfl⟩

/-- C15, witness: the matrix with 6 elements at 4096 is resized to 3 x 3, stride 3,
and the allocator returns 8192. -/
theorem C15_Resize_beyond_capacity_witness :
    (Matrix.Resize3 4 8192 exOwner 3 3 3).events
      = (if exOwner.Data ≠ 0
          then [Event.numa_free exOwner.Data ((4 * exOwner.data.buf_alloc_size) % U64)]
          else [])
        ++ [Event.numa_alloc ((4 * ((3 * 3) % U64)) % U64) 8192] ∧
    ((Matrix.Resize3 4 8192 exOwner 3 3 3).exit = Exit.normal ↔ 8192 ≠ 0) ∧
    (Matrix.Resize3 4 8192 exOwner 3 3 3).st.Data = 8192 ∧
    (Matrix.Resize3 4 8192 exOwner 3 3 3).st.data.buf_alloc_size = (3 * 3) % U64 :=
  (C15_Resize_beyond_capacity 4 8192 Matrix.empty [MCall.resize 2 3 4096] exOwner 3 3 3
    (by decide) (by decide) (by decide) (by decide)).1 (by decide)

/-! ## C16: capacity and size of a `Vector` -/

/-- C16, counterexample. On a fresh vector `Resize(2^64 - 1)` rounds the capacity up
to `2^64`, which is 0 in 64 bits: afterwards `Size()` is `2^64 - 1` and the recorded
capacity is 0 (here the allocator answered the request for 0 bytes with 4096; the
fields are the same when it answers null and the call throws). -/
theorem C16_counterexample :
    Vector.after 4 Vector.init [VOp.resize 18446744073709551615 4096]
      = some { data := 4096, size := 18446744073709551615, alloc_size := 0 } ∧
    Vector.after 4 Vector.init [VOp.resize 18446744073709551615 0]
      = some { data := 0, size := 18446744073709551615, alloc_size := 0 } ∧
    ¬ ((18446744073709551615 : Nat) ≤ 0) := by
  decide

theorem Vector.Resize_size_le (sz a : Nat) (v : Vector) (n : Nat) (hfit : n ≤ U64 - 16) :
    (Vector.Resize sz a v n).st.size ≤ (Vector.Resize sz a v n).st.alloc_size := by
  unfold Vector.Resize Vector.Release
  by_cases h0 : n ≤ 0
  · rw [if_pos h0]
    by_cases hd : v.data ≠ 0
    · rw [if_pos hd]
    · rw [if_neg hd]
  · rw [if_neg h0]
    by_cases hc : v.alloc_size ≥ n
    · rw [if_pos hc]
      exact hc
    · rw [if_neg hc]
      show n ≤ (n + (16 - n % 16) % 16) % U64
      simp only [U64] at hfit ⊢
      omega

theorem Vector.Release_size_le (sz : Nat) (v : Vector) :
    (Vector.Release sz v).st.size ≤ (Vector.Release sz v).st.alloc_size := by
  unfold Vector.Release
  by_cases hd : v.data ≠ 0
  · rw [if_pos hd]
  · rw [if_neg hd]

theorem Vector.after_size_le (sz : Nat) (ops : List VOp) :
    ∀ (v0 v : Vector), v0.size ≤ v0.alloc_size → ops.all VOp.fits = true →
      Vector.after sz v0 ops = some v → v.size ≤ v.alloc_size := by
  induction ops with
  | nil =>
    intro v0 v h _ hr
    simp only [Vector.after, Option.some.injEq] at hr
    exact hr ▸ h
  | cons op ops ih =>
    intro v0 v h hfit hr
    simp only [List.all_cons, Bool.and_eq_true] at hfit
    cases op with
    | resize n a =>
      simp only [Vector.after] at hr
      have hn : n ≤ U64 - 16 := by simpa [VOp.fits] using hfit.1
      exact ih _ _ (Vector.Resize_size_le sz a v0 n hn) hfit.2 hr
    | setZero =>
      simp only [Vector.after, Vector.SetZero] at hr
      by_cases hz : v0.data = 0 ∧ 0 < (sz * v0.size) % U64
      · simp [hz] at hr
      · rw [if_neg hz] at hr
        exact ih _ _ h hfit.2 hr
    | release =>
      simp only [Vector.after] at hr
      exact ih _ _ (Vector.Release_size_le sz v0) hfit.2 hr

/-- C16, as amended. In every state reached from a freshly constructed vector by any
sequence of `Resize(n)` with `n <= 2^64 - 16` (with any allocation outcome),
`SetZero` and `Release` calls, the recorded capacity `alloc_size` is at least
`Size()`. -/
theorem C16_Vector_capacity (sz : Nat) (ops : List VOp) (v : Vector)
    (hfit : ops.all VOp.fits = true) (hreach : Vector.after sz Vector.init ops = some v) :
    v.Size ≤ v.alloc_size :=
  Vector.after_size_le sz ops Vector.init v (Nat.le_refl 0) hfit hreach

/-- C16, witness: a fresh vector after `Resize(5)`, `SetZero()`, `Resize(40)` whose
allocation fails, and `Resize(3)`; it then has size 3 and capacity 48. -/
theorem C16_Vector_capacity_witness :
    Vector.Size { data := 0, size := 3, alloc_size := 48 }
      ≤ Vector.alloc_size { data := 0, size := 3, alloc_size := 48 } :=
  C16_Vector_capacity 4
    [VOp.resize 5 4096, VOp.setZero, VOp.resize 40 0, VOp.resize 3 8192]
    { data := 0, size := 3, alloc_size := 48 } (by decide) (by decide)

/-! ## C17: postcondition of `Vector::Resize` -/

/-- C17, counterexample. On a fresh vector, `Resize(2^64 - 1)` with a successful
allocation returns normally with `Size() == 2^64 - 1` and recorded capacity 0: the
rounded capacity `2^64` wrapped to 0, which is not at least `n`. -/
theorem C17_counterexample :
    (Vector.Resize 4 4096 Vector.init 18446744073709551615).exit = Exit.normal ∧
    (Vector.Resize 4 4096 Vector.init 18446744073709551615).st.Size
      = 18446744073709551615 ∧
    (Vector.Resize 4 4096 Vector.init 18446744073709551615).st.alloc_size = 0 ∧
    ¬ ((18446744073709551615 : Nat)
        ≤ (Vector.Resize 4 4096 Vector.init 18446744073709551615).st.alloc_size) := by
  decide

/-- C17, as amended. For every vector state and every `n` with `0 < n <= 2^64 - 16`,
with a successful allocation: `Resize(n)` returns normally and `Size() == n`.  If the
prior capacity was at least `n`, no allocator call is made and capacity and `Data()`
are unchanged.  Otherwise the old buffer, if any, is freed with its old capacity, a
buffer of the new capacity is allocated and becomes `Data()`, and the new capacity
`n + (16 - n mod 16) mod 16` is the least multiple of 16 that is at least `n`.  For
every state, `Resize(0)` returns normally, frees a held buffer once, and leaves the
empty state (null data, size 0, capacity 0). -/
theorem C17_Vector_Resize (sz a : Nat) (v : Vector) (n : Nat)
    (hn : 0 < n) (hfit : n ≤ U64 - 16) (ha : a ≠ 0) :
    (Vector.Resize sz a v n).exit = Exit.normal ∧
    (Vector.Resize sz a v n).st.Size = n ∧
    (n ≤ v.alloc_size →
      (Vector.Resize sz a v n).events = [] ∧
      (Vector.Resize sz a v n).st.alloc_size = v.alloc_size ∧
      (Vector.Resize sz a v n).st.Data = v.Data) ∧
    (v.alloc_size < n →
      (Vector.Resize sz a v n).events
        = (if v.Data ≠ 0 then [Event.numa_free v.Data ((sz * v.alloc_size) % U64)] else [])
          ++ [Event.numa_alloc ((sz * (Vector.Resize sz a v n).st.alloc_size) % U64) a] ∧
      (Vector.Resize sz a v n).st.Data = a ∧
      (Vector.Resize sz a v n).st.alloc_size = n + (16 - n % 16) % 16 ∧
      16 ∣ (Vector.Resize sz a v n).st.alloc_size ∧
      n ≤ (Vector.Resize sz a v n).st.alloc_size ∧
      ∀ k : Nat, 16 ∣ k → n ≤ k → (Vector.Resize sz a v n).st.alloc_size ≤ k) ∧
    ((Vector.Resize sz a v 0).exit = Exit.normal ∧
      (Vector.Resize sz a v 0).st = Vector.init ∧
      (Vector.Resize sz a v 0).events
        = (if v.Data ≠ 0 then [Event.numa_free v.Data ((sz * v.alloc_size) % U64)]
            else [])) := by
  have h0 : ¬ (n ≤ 0) := by omega
  have hcapeq : (n + (16 - n % 16) % 16) % U64 = n + (16 - n % 16) % 16 := by
    simp only [U64] at hfit ⊢
    omega
  refine ⟨?_, ?_, ?_, ?_, ?_⟩
  · unfold Vector.Resize
    rw [if_neg h0]
    by_cases hc : v.alloc_size ≥ n
    · rw [if_pos hc]
    · rw [if_neg hc]
      simp [ha]
  · unfold Vector.Resize
    rw [if_neg h0]
    by_cases hc : v.alloc_size ≥ n
    · rw [if_pos hc]
      rfl
    · rw [if_neg hc]
      rfl
  · intro hc
    have hc2 : v.alloc_size ≥ n := hc
    unfold Vector.Resize
    rw [if_neg h0, if_pos hc2]
    exact ⟨rfl, rfl, rfl⟩
  · intro hlt
    have hc : ¬ (v.alloc_size ≥ n) := by omega
    have hr : Vector.Resize sz a v n
        = { st := { data := a, size := n
                    alloc_size := (n + (16 - (n % 16)) % 16) % U64 }
            events :=
              (if v.data ≠ 0 then [Event.numa_free v.data ((sz * v.alloc_size) % U64)]
                else [])
              ++ [Event.numa_alloc ((sz * ((n + (16 - (n % 16)) % 16) % U64)) % U64) a]
            exit := if a = 0 then Exit.bad_alloc else Exit.normal } := by
      unfold Vector.Resize
      rw [if_neg h0, if_neg hc]
    rw [hr]
    refine ⟨rfl, rfl, hcapeq, ?_, ?_, ?_⟩
    · show 16 ∣ (n + (16 - n % 16) % 16) % U64
      rw [hcapeq]
      omega
    · show n ≤ (n + (16 - n % 16) % 16) % U64
      rw [hcapeq]
      omega
    · intro k hk hnk
      show (n + (16 - n % 16) % 16) % U64 ≤ k
      rw [hcapeq]
      omega
  · unfold Vector.Resize Vector.Release Vector.Data
    simp only [Nat.le_refl, if_true]
    by_cases hd : v.data = 0
    · simp [hd, Vector.init]
    · simp [hd, Vector.init]

/-- C17, witness: `Resize(5)` on a fresh vector gives size 5 and capacity 16. -/
theorem C17_Vector_Resize_witness :
    (Vector.Resize 4 4096 Vector.init 5).exit = Exit.normal ∧
    (Vector.Resize 4 4096 Vector.init 5).st.Size = 5 ∧
    (Vector.Resize 4 4096 Vector.init 5).st.alloc_size = 16 ∧
    (Vector.Resize 4 4096 Vector.init 5).st.Data = 4096 :=
  ⟨(C17_Vector_Resize 4 4096 Vector.init 5 (by decide) (by decide) (by decide)).1,
   (C17_Vector_Resize 4 4096 Vector.init 5 (by decide) (by decide) (by decide)).2.1,
   ((C17_Vector_Resize 4 4096 Vector.init 5 (by decide) (by decide) (by decide)).2.2.2.1
      (by decide)).2.2.1,
   ((C17_Vector_Resize 4 4096 Vector.init 5 (by decide) (by decide) (by decide)).2.2.2.1
      (by decide)).2.1⟩

/-! ## C19: rows of a dilated view -/

/-- C19, counterexample. The parent has 6 rows.  With `dilation = 2` and
`start_row = 2 < 6` the view has 3 rows, and for `i = 2 < 3` the row it addresses is
parent row `2 + 2 * 2 = 6`, which is not below 6: `view.Row(2)` is the address one
past the parent's last row, the end of its 24-element buffer. -/
theorem C19_counterexample :
    (2 : Nat) < exParent.Rows ∧
    (Matrix.dilated 4 exParent 2 2 false).map Matrix.Rows = some 3 ∧
    ¬ (2 + 2 * 2 < exParent.Rows) ∧
    (Matrix.dilated 4 exParent 2 2 false).map (fun v => Matrix.Row 4 v 2)
      = some (exParent.Row 4 (2 + 2 * 2)) ∧
    exParent.Row 4 (2 + 2 * 2) = exParent.Data + 4 * exParent.data.buf_alloc_size := by
  decide

theorem Matrix.dilated_Row (sz : Nat) (m : Matrix) (start_row d i : Nat) :
    Matrix.Row sz
      { data := MatData.ofBuf (ptrAdd sz m.data.buf ((start_row * m.stride) % U64))
        rows := m.rows / d
        cols := m.cols
        stride := (m.stride * d) % U64 } i
      = Matrix.Row sz m ((start_row + i * d) % U64) := by
  simp only [Matrix.Row, MatData.ofBuf, ptrAdd]
  apply (ZMod.natCast_eq_natCast_iff' _ _ U64).mp
  simp only [Nat.cast_add, Nat.cast_mul, ZMod.natCast_mod]
  ring

/-- C19, as amended. For every parent matrix with `R` rows, every dilation `d > 0`,
every `start_row < d` and every `i < view.Rows()`, the dilated view is constructed,
the row it addresses as `Row(i)` is parent row `start_row + i * d`, and that index is
below `R`. -/
theorem C19_dilated_rows_in_parent (sz : Nat) (m : Matrix) (start_row d i : Nat)
    (unused : Bool) (hd : 0 < d) (hstart : start_row < d) (hR : m.Rows < U64)
    (hi : i < m.Rows / d) :
    ∃ v : Matrix, Matrix.dilated sz m start_row d unused = some v ∧
      i < v.Rows ∧ start_row + i * d < m.Rows ∧
      v.Row sz i = m.Row sz (start_row + i * d) := by
  have hd0 : d ≠ 0 := by omega
  have h1 : (i + 1) * d ≤ (m.Rows / d) * d := Nat.mul_le_mul_right _ hi
  have h2 : (m.Rows / d) * d ≤ m.Rows := Nat.div_mul_le_self _ _
  have h3 : (i + 1) * d = i * d + d := by ring
  have hlt : start_row + i * d < m.Rows := by omega
  have hmod : (start_row + i * d) % U64 = start_row + i * d :=
    Nat.mod_eq_of_lt (lt_trans hlt hR)
  refine ⟨{ data := MatData.ofBuf (ptrAdd sz m.data.buf ((start_row * m.stride) % U64))
            rows := m.rows / d
            cols := m.cols
            stride := (m.stride * d) % U64 }, ?_, hi, hlt, ?_⟩
  · simp only [Matrix.dilated, hd0, if_false]
  · rw [Matrix.dilated_Row, hmod]

/-- C19, witness: the parent of 6 rows, `d = 2`, `start_row = 1`; the last row of the
view, `i = 2`, is parent row 5. -/
theorem C19_dilated_rows_in_parent_witness :
    ∃ v : Matrix, Matrix.dilated 4 exParent 1 2 false = some v ∧
      2 < v.Rows ∧ 1 + 2 * 2 < exParent.Rows ∧
      v.Row 4 2 = exParent.Row 4 (1 + 2 * 2) :=
  C19_dilated_rows_in_parent 4 exParent 1 2 2 false
    (by decide) (by decide) (by decide) (by decide)

/-! ## C20: buffer and capacity after a failed allocation -/

/-- C20, the code at the failing input. On an empty block `Resize(2, 3, 3)` records
the capacity 6 before it allocates; when `xft_numa_alloc` returns null it throws and
leaves the capacity 6 with a null buffer.  A later `Resize(1, 3, 3)` needs `3 <= 6`,
so it returns normally without allocating, and the buffer is still null although
`rows * stride = 3 > 0`.  The same happens through `Matrix::Resize(rows, cols,
stride)` and in the quantized block. -/
theorem C20_capacity_without_buffer :
    (MatData.Resize 4 0 MatData.init 2 3 3
        = { st := { shadow := false, buf_alloc_size := 6, buf := 0 }
            events := [Event.numa_alloc 24 0], exit := Exit.bad_alloc } ∧
      MatData.Resize 4 8192 { shadow := false, buf_alloc_size := 6, buf := 0 } 1 3 3
        = { st := { shadow := false, buf_alloc_size := 6, buf := 0 }
            events := [], exit := Exit.normal }) ∧
    (Matrix.after 4 Matrix.empty [MCall.resize3 2 3 3 0] = some exFailed ∧
      0 < exFailed.data.buf_alloc_size ∧ exFailed.Data = 0 ∧
      (Matrix.Resize3 4 8192 exFailed 1 3 3).exit = Exit.normal ∧
      0 < 1 * 3 ∧
      (Matrix.Resize3 4 8192 exFailed 1 3 3).st.Data = 0) ∧
    ((MatDataQ.Resize 1 0 0 0 (MatDataQ.init exGarbage) 2 3 3).exit = Exit.bad_alloc ∧
      (MatDataQ.Resize 1 0 0 0 (MatDataQ.init exGarbage) 2 3 3).st.buf_alloc_size = 6 ∧
      (MatDataQ.Resize 1 8192 0 0
        (MatDataQ.Resize 1 0 0 0 (MatDataQ.init exGarbage) 2 3 3).st 1 3 3).exit
        = Exit.normal ∧
      (MatDataQ.Resize 1 8192 0 0
        (MatDataQ.Resize 1 0 0 0 (MatDataQ.init exGarbage) 2 3 3).st 1 3 3).st.buf = 0) := by
  decide

end xft
